import Mathlib

/-!
Shallow embedding of the ticketing system contracts:
`EventRegistry.sol`, `TicketNFT.sol` and `TicketMarket.sol`.

The three contracts' storage is combined into one `ChainState` record
(the Market is the only writer to NFT state, and cross-contract calls are
inlined as direct state updates, with the callee's own checks preserved).
Solidity `revert` is modelled by `Except.error`: an operation that errors
returns no state, i.e. the pre-state persists unchanged (all-or-nothing).
Machine integers are `Nat`; widths are modelled explicitly where they
matter: the `uint64` timestamp truncation in `BuyerState.lastBuyTs`, the
`uint64` checked addition in the cooldown test, and the `uint256` checked
multiplication in the resale price cap.
-/

namespace Ticketing

/-- Enum `TicketState` of `TicketNFT.sol` (None, Valid, Used, Cancelled). -/
inductive TicketState where
  | none
  | valid
  | used
  | cancelled
deriving DecidableEq, Repr

/-- Struct `EventData` of `EventRegistry.sol`. Addresses are `Nat` (0 is the
zero address); `maxResaleFactor` is a `uint8`, `maxTicketsPerWallet` a
`uint16`, `walletCooldown` a `uint32`. -/
structure EventData where
  id : Nat
  name : String
  date : Nat
  location : String
  basePriceWei : Nat
  maxResaleFactor : Nat
  totalTickets : Nat
  metadataCid : String
  organizer : Nat
  active : Bool
  maxTicketsPerWallet : Nat
  walletCooldown : Nat
deriving DecidableEq, Repr

/-- The all-zero `EventData`, what a Solidity mapping returns for an
unknown event id. -/
def zeroEvent : EventData :=
  { id := 0, name := "", date := 0, location := "", basePriceWei := 0,
    maxResaleFactor := 0, totalTickets := 0, metadataCid := "",
    organizer := 0, active := false, maxTicketsPerWallet := 0,
    walletCooldown := 0 }

/-- Struct `Listing` of `TicketMarket.sol`. -/
structure Listing where
  tokenId : Nat
  seller : Nat
  priceWei : Nat
  active : Bool
deriving DecidableEq, Repr

/-- The all-zero `Listing` (unknown listing id in the mapping). -/
def zeroListing : Listing :=
  { tokenId := 0, seller := 0, priceWei := 0, active := false }

/-- Struct `BuyerState` of `TicketMarket.sol`: `bought` is a `uint256`
counter, `lastBuyTs` a `uint64` timestamp. -/
structure BuyerState where
  bought : Nat
  lastBuyTs : Nat
deriving DecidableEq, Repr

/-- The combined storage of the three deployed contracts. -/
structure ChainState where
  /-- Solidity `Ownable` owner of `EventRegistry`. -/
  registryOwner : Nat
  /-- Solidity `EventRegistry.nextEventId`. -/
  nextEventId : Nat
  /-- Solidity `EventRegistry.events` mapping. -/
  events : Nat → EventData
  /-- Solidity `EventRegistry._validators` mapping. -/
  validators : Nat → Nat → Bool
  /-- Solidity `Ownable` owner of `TicketNFT`. -/
  nftOwner : Nat
  /-- Solidity `TicketNFT._nextTokenId`. -/
  nextTokenId : Nat
  /-- ERC721 `_ownerOf` (0 = token does not exist). -/
  owners : Nat → Nat
  /-- Solidity `TicketNFT.ticketState` mapping. -/
  ticketState : Nat → TicketState
  /-- Solidity `TicketNFT.ticketEvent` mapping. -/
  ticketEvent : Nat → Nat
  /-- Solidity `TicketNFT.market` (address allowed to mint / mark / transfer). -/
  market : Nat
  /-- Solidity `Ownable` owner of `TicketMarket` (global administrator). -/
  marketOwner : Nat
  /-- The address of the deployed `TicketMarket` contract itself. -/
  marketAddr : Nat
  /-- Solidity `TicketMarket.nextListingId`. -/
  nextListingId : Nat
  /-- Solidity `TicketMarket.listings` mapping. -/
  listings : Nat → Listing
  /-- Solidity `TicketMarket.mintedTicketsPerEvent` mapping. -/
  mintedTicketsPerEvent : Nat → Nat
  /-- Solidity `TicketMarket.buyerState` mapping. -/
  buyerState : Nat → Nat → BuyerState
  /-- Log of outgoing value transfers `(recipient, amountWei)`, most
  recent first; records the `payable(...).transfer` in `buyFromResale`. -/
  payLog : List (Nat × Nat)

/-- Pointwise update of a mapping. -/
def upd {α : Type} (f : Nat → α) (k : Nat) (v : α) : Nat → α :=
  fun j => if j = k then v else f j

@[simp] theorem upd_apply {α : Type} (f : Nat → α) (k : Nat) (v : α) (j : Nat) :
    upd f k v j = if j = k then v else f j := rfl

/-- Revert-style error identities, one per `require` / panic site in the
source (the Spanish names follow the source revert strings). -/
inductive Err where
  | rangoUint
  | nombreObligatorio
  | precioBaseCero
  | totalTicketsCero
  | factorReventaMinimo
  | limiteCarteraMayorTotal
  | eventoInexistente
  | soloOrganizerUOwner
  | validadorNoValido
  | eventoInactivo
  | eventoYaPaso
  | precioIncorrecto
  | noQuedanTickets
  | limitePorCartera
  | esperaCooldown
  | desbordamiento
  | noEresDueno
  | ticketNoValido
  | precioDebeSerPositivo
  | sobrepasaMaximoReventa
  | listingInactiva
  | listingInexistente
  | noAutorizado
  | soloMercado
  | tokenNoExiste
  | ticketNoValidoParaUsar
  | mintDestinoCero
  | tokenYaMinteado
  | marketCero
  | marketYaAsignado
  | transferDestinoCero
  | transferFromIncorrecto
deriving DecidableEq, Repr

/-- The spec's error taxonomy (section 7 of the design document). -/
inductive ErrClass where
  | validation
  | notFound
  | authorization
  | stateConflict
  | paymentMismatch
  | overflowPanic
deriving DecidableEq, Repr

/-- Classification of each revert site into the spec's error taxonomy. -/
def Err.kind : Err → ErrClass
  | .rangoUint => .validation
  | .nombreObligatorio => .validation
  | .precioBaseCero => .validation
  | .totalTicketsCero => .validation
  | .factorReventaMinimo => .validation
  | .limiteCarteraMayorTotal => .validation
  | .eventoInexistente => .notFound
  | .soloOrganizerUOwner => .authorization
  | .validadorNoValido => .validation
  | .eventoInactivo => .stateConflict
  | .eventoYaPaso => .stateConflict
  | .precioIncorrecto => .paymentMismatch
  | .noQuedanTickets => .stateConflict
  | .limitePorCartera => .stateConflict
  | .esperaCooldown => .stateConflict
  | .desbordamiento => .overflowPanic
  | .noEresDueno => .authorization
  | .ticketNoValido => .stateConflict
  | .precioDebeSerPositivo => .validation
  | .sobrepasaMaximoReventa => .validation
  | .listingInactiva => .stateConflict
  | .listingInexistente => .notFound
  | .noAutorizado => .authorization
  | .soloMercado => .authorization
  | .tokenNoExiste => .notFound
  | .ticketNoValidoParaUsar => .stateConflict
  | .mintDestinoCero => .validation
  | .tokenYaMinteado => .stateConflict
  | .marketCero => .validation
  | .marketYaAsignado => .stateConflict
  | .transferDestinoCero => .validation
  | .transferFromIncorrecto => .authorization

-- ========= EventRegistry =========

/-- Solidity `EventRegistry.createEvent`. The leading range test models the ABI
bounds of the `uint8` / `uint16` / `uint32` parameters. Returns the new
event id alongside the new state. -/
def createEvent (s : ChainState) (sender : Nat) (name : String) (date : Nat)
    (location : String) (basePriceWei maxResaleFactor totalTickets : Nat)
    (metadataCid : String) (maxTicketsPerWallet walletCooldown : Nat) :
    Except Err (ChainState × Nat) :=
  if 2 ^ 8 ≤ maxResaleFactor ∨ 2 ^ 16 ≤ maxTicketsPerWallet ∨
      2 ^ 32 ≤ walletCooldown then .error .rangoUint
  else if name = "" then .error .nombreObligatorio
  else if basePriceWei = 0 then .error .precioBaseCero
  else if totalTickets = 0 then .error .totalTicketsCero
  else if maxResaleFactor < 100 then .error .factorReventaMinimo
  else if 0 < maxTicketsPerWallet ∧ ¬ maxTicketsPerWallet ≤ totalTickets then
    .error .limiteCarteraMayorTotal
  else
    .ok ({ s with
            nextEventId := s.nextEventId + 1,
            events := upd s.events s.nextEventId
              { id := s.nextEventId, name := name, date := date,
                location := location, basePriceWei := basePriceWei,
                maxResaleFactor := maxResaleFactor,
                totalTickets := totalTickets, metadataCid := metadataCid,
                organizer := sender, active := true,
                maxTicketsPerWallet := maxTicketsPerWallet,
                walletCooldown := walletCooldown } },
          s.nextEventId)

/-- Solidity `EventRegistry.setEventActive`. -/
def setEventActive (s : ChainState) (sender eventId : Nat) (active : Bool) :
    Except Err ChainState :=
  let evt := s.events eventId
  if evt.organizer = 0 then .error .eventoInexistente
  else if ¬ (sender = evt.organizer ∨ sender = s.registryOwner) then
    .error .soloOrganizerUOwner
  else
    .ok { s with events := upd s.events eventId { evt with active := active } }

/-- Solidity `EventRegistry.setValidator`. -/
def setValidator (s : ChainState) (sender eventId validator : Nat)
    (isActive : Bool) : Except Err ChainState :=
  let evt := s.events eventId
  if evt.organizer = 0 then .error .eventoInexistente
  else if ¬ (sender = evt.organizer ∨ sender = s.registryOwner) then
    .error .soloOrganizerUOwner
  else if validator = 0 then .error .validadorNoValido
  else
    .ok { s with validators :=
                   upd s.validators eventId
                     (upd (s.validators eventId) validator isActive) }

-- ========= TicketNFT =========

/-- Solidity `TicketNFT.setMarket` (onlyOwner, assignable once). -/
def setMarket (s : ChainState) (caller newMarket : Nat) :
    Except Err ChainState :=
  if caller ≠ s.nftOwner then .error .soloMercado
  else if newMarket = 0 then .error .marketCero
  else if s.market ≠ 0 then .error .marketYaAsignado
  else .ok { s with market := newMarket }

/-- Solidity `TicketNFT.mintTicket` (onlyMarket): pre-increments `_nextTokenId`,
then `_safeMint` (receiver nonzero, token id fresh), then records the
event association and the `Valid` state. Returns the new token id. -/
def mintTicket (s : ChainState) (caller toAddr eventId : Nat) :
    Except Err (ChainState × Nat) :=
  if caller ≠ s.market then .error .soloMercado
  else if toAddr = 0 then .error .mintDestinoCero
  else if s.owners (s.nextTokenId + 1) ≠ 0 then .error .tokenYaMinteado
  else
    .ok ({ s with
            nextTokenId := s.nextTokenId + 1,
            owners := upd s.owners (s.nextTokenId + 1) toAddr,
            ticketEvent := upd s.ticketEvent (s.nextTokenId + 1) eventId,
            ticketState := upd s.ticketState (s.nextTokenId + 1) .valid },
          s.nextTokenId + 1)

/-- Solidity `TicketNFT.markUsed` (onlyMarket): token must exist and be `Valid`. -/
def markUsed (s : ChainState) (caller tokenId : Nat) : Except Err ChainState :=
  if caller ≠ s.market then .error .soloMercado
  else if s.owners tokenId = 0 then .error .tokenNoExiste
  else if s.ticketState tokenId ≠ TicketState.valid then
    .error .ticketNoValidoParaUsar
  else
    .ok { s with ticketState := upd s.ticketState tokenId .used }

/-- ERC721 `transferFrom` as specialized by `TicketNFT._isAuthorized`
(only the Market address is ever an authorized spender). -/
def transferFrom (s : ChainState) (spender from_ toAddr tokenId : Nat) :
    Except Err ChainState :=
  if toAddr = 0 then .error .transferDestinoCero
  else if spender ≠ s.market then
    (if s.owners tokenId = 0 then .error .tokenNoExiste
     else .error .transferFromIncorrecto)
  else if s.owners tokenId ≠ from_ then .error .transferFromIncorrecto
  else .ok { s with owners := upd s.owners tokenId toAddr }

-- ========= TicketMarket =========

/-- Solidity `TicketMarket.buyPrimary`. `sender` is `msg.sender`, `value` is
`msg.value`, `now` is `block.timestamp`. The cooldown test mirrors the
source's checked `uint64` addition (`lastBuyTs + walletCooldown` reverts
on `uint64` overflow), and the stored timestamp is truncated to
`uint64`. -/
def buyPrimary (s : ChainState) (sender value now eventId : Nat) :
    Except Err ChainState :=
  let evt := s.events eventId
  if evt.organizer = 0 then .error .eventoInexistente
  else if evt.active = false then .error .eventoInactivo
  else if ¬ now < evt.date then .error .eventoYaPaso
  else if ¬ value = evt.basePriceWei then .error .precioIncorrecto
  else if ¬ s.mintedTicketsPerEvent eventId < evt.totalTickets then
    .error .noQuedanTickets
  else if 0 < evt.maxTicketsPerWallet ∧
      ¬ (s.buyerState eventId sender).bought + 1 ≤ evt.maxTicketsPerWallet then
    .error .limitePorCartera
  else if 0 < evt.walletCooldown ∧ (s.buyerState eventId sender).lastBuyTs ≠ 0 ∧
      2 ^ 64 ≤ (s.buyerState eventId sender).lastBuyTs + evt.walletCooldown then
    .error .desbordamiento
  else if 0 < evt.walletCooldown ∧ (s.buyerState eventId sender).lastBuyTs ≠ 0 ∧
      ¬ (s.buyerState eventId sender).lastBuyTs + evt.walletCooldown ≤ now then
    .error .esperaCooldown
  else
    let s1 := { s with mintedTicketsPerEvent :=
                         upd s.mintedTicketsPerEvent eventId
                           (s.mintedTicketsPerEvent eventId + 1) }
    match mintTicket s1 s1.marketAddr sender eventId with
    | .error e => .error e
    | .ok (s2, _tok) =>
        .ok { s2 with buyerState :=
                        upd s2.buyerState eventId
                          (upd (s2.buyerState eventId) sender
                            { bought := (s2.buyerState eventId sender).bought + 1,
                              lastBuyTs := now % 2 ^ 64 }) }

/-- Solidity `TicketMarket.listForResale`. `ownerOf` reverts on a nonexistent
token; the price cap `basePriceWei * maxResaleFactor / 100` uses checked
`uint256` multiplication (reverts at `2 ^ 256`) and floor division. -/
def listForResale (s : ChainState) (sender now tokenId priceWei : Nat) :
    Except Err ChainState :=
  if s.owners tokenId = 0 then .error .tokenNoExiste
  else if s.owners tokenId ≠ sender then .error .noEresDueno
  else if s.ticketState tokenId ≠ TicketState.valid then .error .ticketNoValido
  else if priceWei = 0 then .error .precioDebeSerPositivo
  else
    let evt := s.events (s.ticketEvent tokenId)
    if evt.organizer = 0 then .error .eventoInexistente
    else if evt.active = false then .error .eventoInactivo
    else if ¬ now < evt.date then .error .eventoYaPaso
    else if 2 ^ 256 ≤ evt.basePriceWei * evt.maxResaleFactor then
      .error .desbordamiento
    else if ¬ priceWei ≤ evt.basePriceWei * evt.maxResaleFactor / 100 then
      .error .sobrepasaMaximoReventa
    else
      match transferFrom s s.marketAddr sender s.marketAddr tokenId with
      | .error e => .error e
      | .ok s1 =>
          .ok { s1 with
                 nextListingId := s1.nextListingId + 1,
                 listings := upd s1.listings s1.nextListingId
                   { tokenId := tokenId, seller := sender,
                     priceWei := priceWei, active := true } }

/-- The `lst.active = false` write in `buyFromResale`, isolated so that
the source's deactivate-before-pay-before-transfer ordering is visible
in the definition of `buyFromResale`. -/
def deactivateListing (s : ChainState) (listingId : Nat) : ChainState :=
  { s with listings := upd s.listings listingId
                         { s.listings listingId with active := false } }

/-- The `payable(lst.seller).transfer(msg.value)` step: an outgoing value
transfer, recorded on the pay log. -/
def payTo (s : ChainState) (toAddr amount : Nat) : ChainState :=
  { s with payLog := (toAddr, amount) :: s.payLog }

/-- Solidity `TicketMarket.buyFromResale`: checks, then deactivate the listing,
then pay the seller, then transfer the escrowed ticket to the buyer. -/
def buyFromResale (s : ChainState) (sender value now listingId : Nat) :
    Except Err ChainState :=
  let lst := s.listings listingId
  if lst.active = false then .error .listingInactiva
  else if lst.seller = 0 then .error .listingInexistente
  else if ¬ value = lst.priceWei then .error .precioIncorrecto
  else
    let evt := s.events (s.ticketEvent lst.tokenId)
    if evt.organizer = 0 then .error .eventoInexistente
    else if evt.active = false then .error .eventoInactivo
    else if ¬ now < evt.date then .error .eventoYaPaso
    else
      let s1 := deactivateListing s listingId
      let s2 := payTo s1 lst.seller value
      match transferFrom s2 s2.marketAddr s2.marketAddr sender lst.tokenId with
      | .error e => .error e
      | .ok s3 => .ok s3

/-- Solidity `TicketMarket.markTicketUsed`: resolves the ticket's event, authorizes
organizer / registered validator / market owner, then delegates to the
NFT's `markUsed`. -/
def markTicketUsed (s : ChainState) (sender tokenId : Nat) :
    Except Err ChainState :=
  let evt := s.events (s.ticketEvent tokenId)
  if evt.organizer = 0 then .error .eventoInexistente
  else if ¬ (sender = evt.organizer ∨
      s.validators (s.ticketEvent tokenId) sender = true ∨
      sender = s.marketOwner) then
    .error .noAutorizado
  else
    match markUsed s s.marketAddr tokenId with
    | .error e => .error e
    | .ok s' => .ok s'

-- ========= Externally triggered operations and reachability =========

/-- The write surface of the deployed system: every state-mutating public
entry point of the three contracts, with the external caller and call
arguments. -/
inductive Op where
  | createEvent (sender : Nat) (name : String) (date : Nat)
      (location : String) (basePriceWei maxResaleFactor totalTickets : Nat)
      (metadataCid : String) (maxTicketsPerWallet walletCooldown : Nat)
  | setEventActive (sender eventId : Nat) (active : Bool)
  | setValidator (sender eventId validator : Nat) (isActive : Bool)
  | setMarket (sender newMarket : Nat)
  | buyPrimary (sender value now eventId : Nat)
  | listForResale (sender now tokenId priceWei : Nat)
  | buyFromResale (sender value now listingId : Nat)
  | markTicketUsed (sender tokenId : Nat)
  | nftMintTicket (sender toAddr eventId : Nat)
  | nftMarkUsed (sender tokenId : Nat)
  | nftTransferFrom (sender from_ toAddr tokenId : Nat)

/-- The external caller (`msg.sender`) of an operation. -/
def Op.sender : Op → Nat
  | .createEvent a _ _ _ _ _ _ _ _ _ => a
  | .setEventActive a _ _ => a
  | .setValidator a _ _ _ => a
  | .setMarket a _ => a
  | .buyPrimary a _ _ _ => a
  | .listForResale a _ _ _ => a
  | .buyFromResale a _ _ _ => a
  | .markTicketUsed a _ => a
  | .nftMintTicket a _ _ => a
  | .nftMarkUsed a _ => a
  | .nftTransferFrom a _ _ _ => a

/-- Solidity `createEvent` with the returned event id dropped (transaction view). -/
def createEventOp (s : ChainState) (a : Nat) (name : String) (date : Nat)
    (loc : String) (bp f tt : Nat) (cid : String) (mpw cd : Nat) :
    Except Err ChainState :=
  match createEvent s a name date loc bp f tt cid mpw cd with
  | .error e => .error e
  | .ok (s2, _eid) => .ok s2

/-- Solidity `mintTicket` with the returned token id dropped (transaction view). -/
def mintTicketOp (s : ChainState) (a toAddr e : Nat) : Except Err ChainState :=
  match mintTicket s a toAddr e with
  | .error e2 => .error e2
  | .ok (s2, _tok) => .ok s2

/-- Dispatch an operation against the current state. -/
def applyOp (s : ChainState) : Op → Except Err ChainState
  | .createEvent a name date loc bp f tt cid mpw cd =>
      createEventOp s a name date loc bp f tt cid mpw cd
  | .setEventActive a e act => setEventActive s a e act
  | .setValidator a e v act => setValidator s a e v act
  | .setMarket a m => setMarket s a m
  | .buyPrimary a v now e => buyPrimary s a v now e
  | .listForResale a now t p => listForResale s a now t p
  | .buyFromResale a v now l => buyFromResale s a v now l
  | .markTicketUsed a t => markTicketUsed s a t
  | .nftMintTicket a toAddr e => mintTicketOp s a toAddr e
  | .nftMarkUsed a t => markUsed s a t
  | .nftTransferFrom a f toAddr t => transferFrom s a f toAddr t

/-- Revert semantics: a failed operation leaves the pre-state in force. -/
def applyResult (s : ChainState) : Except Err ChainState → ChainState
  | .ok s' => s'
  | .error _ => s

/-- One externally triggered transaction that succeeds. `msg.sender` of an
external call is never the zero address and never the Market contract's
own address (a contract's address appears as caller only in its own
internal calls, which are inlined in the operations above). -/
def step (s s' : ChainState) : Prop :=
  ∃ op : Op, op.sender ≠ 0 ∧ op.sender ≠ s.marketAddr ∧ applyOp s op = .ok s'

/-- Post-deployment state: empty storage, `TicketNFT.market` wired to the
deployed Market address. -/
def initState (regOwner nftOwner marketOwner marketAddr : Nat) : ChainState :=
  { registryOwner := regOwner, nextEventId := 0,
    events := fun _ => zeroEvent, validators := fun _ _ => false,
    nftOwner := nftOwner, nextTokenId := 0, owners := fun _ => 0,
    ticketState := fun _ => TicketState.none, ticketEvent := fun _ => 0,
    market := marketAddr, marketOwner := marketOwner,
    marketAddr := marketAddr, nextListingId := 0,
    listings := fun _ => zeroListing, mintedTicketsPerEvent := fun _ => 0,
    buyerState := fun _ _ => { bought := 0, lastBuyTs := 0 },
    payLog := [] }

/-- A state the deployed system can actually be in: reachable from some
deployment by successful transactions. -/
def Reachable (s : ChainState) : Prop :=
  ∃ ro no mo ma : Nat, ma ≠ 0 ∧
    Relation.ReflTransGen step (initState ro no mo ma) s

-- ========= Micro-step view of buyPrimary =========

/-- One sub-step of an operation's body: either a `require`-style check
(`Option.some` is the revert it raises) or a storage mutation. -/
inductive Micro where
  | check (p : ChainState → Option Err)
  | mutate (f : ChainState → ChainState)

/-- Run the sub-steps in order WITHOUT revert-rollback: on a failing
check, return the state as mutated so far together with the error. This
makes "which mutations had already happened when the check failed"
observable. -/
def runMicro : ChainState → List Micro → ChainState × Option Err
  | s, [] => (s, Option.none)
  | s, Micro.check p :: rest =>
      match p s with
      | Option.none => runMicro s rest
      | Option.some e => (s, Option.some e)
  | s, Micro.mutate f :: rest => runMicro (f s) rest

/-- The body of `TicketMarket.buyPrimary` as its source-ordered list of
checks and mutations, including the inlined `TicketNFT.mintTicket`
sub-steps (its `onlyMarket` modifier, `_nextTokenId` pre-increment and
`_safeMint` checks). -/
def buyPrimaryMicro (sender value now eventId : Nat) : List Micro :=
  [ Micro.check (fun s =>
      if (s.events eventId).organizer = 0 then Option.some .eventoInexistente
      else Option.none),
    Micro.check (fun s =>
      if (s.events eventId).active = false then Option.some .eventoInactivo
      else Option.none),
    Micro.check (fun s =>
      if ¬ now < (s.events eventId).date then Option.some .eventoYaPaso
      else Option.none),
    Micro.check (fun s =>
      if ¬ value = (s.events eventId).basePriceWei then
        Option.some .precioIncorrecto
      else Option.none),
    Micro.check (fun s =>
      if ¬ s.mintedTicketsPerEvent eventId < (s.events eventId).totalTickets then
        Option.some .noQuedanTickets
      else Option.none),
    Micro.check (fun s =>
      if 0 < (s.events eventId).maxTicketsPerWallet ∧
          ¬ (s.buyerState eventId sender).bought + 1 ≤
            (s.events eventId).maxTicketsPerWallet then
        Option.some .limitePorCartera
      else Option.none),
    Micro.check (fun s =>
      if 0 < (s.events eventId).walletCooldown ∧
          (s.buyerState eventId sender).lastBuyTs ≠ 0 ∧
          2 ^ 64 ≤ (s.buyerState eventId sender).lastBuyTs +
            (s.events eventId).walletCooldown then
        Option.some .desbordamiento
      else Option.none),
    Micro.check (fun s =>
      if 0 < (s.events eventId).walletCooldown ∧
          (s.buyerState eventId sender).lastBuyTs ≠ 0 ∧
          ¬ (s.buyerState eventId sender).lastBuyTs +
            (s.events eventId).walletCooldown ≤ now then
        Option.some .esperaCooldown
      else Option.none),
    Micro.mutate (fun s =>
      { s with mintedTicketsPerEvent :=
                 upd s.mintedTicketsPerEvent eventId
                   (s.mintedTicketsPerEvent eventId + 1) }),
    Micro.check (fun s =>
      if s.marketAddr ≠ s.market then Option.some .soloMercado
      else Option.none),
    Micro.check (fun _s =>
      if sender = 0 then Option.some .mintDestinoCero else Option.none),
    Micro.check (fun s =>
      if s.owners (s.nextTokenId + 1) ≠ 0 then Option.some .tokenYaMinteado
      else Option.none),
    Micro.mutate (fun s =>
      { s with nextTokenId := s.nextTokenId + 1,
               owners := upd s.owners (s.nextTokenId + 1) sender,
               ticketEvent := upd s.ticketEvent (s.nextTokenId + 1) eventId,
               ticketState := upd s.ticketState (s.nextTokenId + 1)
                                TicketState.valid }),
    Micro.mutate (fun s =>
      { s with buyerState :=
                 upd s.buyerState eventId
                   (upd (s.buyerState eventId) sender
                     { bought := (s.buyerState eventId sender).bought + 1,
                       lastBuyTs := now % 2 ^ 64 }) }) ]

-- ========= Inductive invariant =========

/-- Inductive invariant satisfied by every reachable state. -/
structure Inv (s : ChainState) : Prop where
  /-- Solidity `TicketNFT.market` is wired to the Market contract's address. -/
  wired : s.market = s.marketAddr
  /-- The Market contract's address is nonzero. -/
  marketNz : s.marketAddr ≠ 0
  /-- Minted tickets never exceed the event's capacity. -/
  capBound : ∀ e, s.mintedTicketsPerEvent e ≤ (s.events e).totalTickets
  /-- Unassigned event ids hold the zero record. -/
  freshEvt : ∀ e, s.nextEventId ≤ e → s.events e = zeroEvent
  /-- Unassigned event ids have no minted tickets. -/
  freshMint : ∀ e, s.nextEventId ≤ e → s.mintedTicketsPerEvent e = 0
  /-- Unassigned event ids have no buyer counters. -/
  freshBuyer : ∀ e w, s.nextEventId ≤ e →
    s.buyerState e w = { bought := 0, lastBuyTs := 0 }
  /-- Token ids beyond `_nextTokenId` are unminted. -/
  freshTok : ∀ t, s.nextTokenId < t → s.owners t = 0
  /-- A ticket has a non-`None` state exactly when it is owned. -/
  stateOwner : ∀ t, s.ticketState t ≠ TicketState.none ↔ s.owners t ≠ 0
  /-- When a per-wallet limit is configured, the bought counter obeys it. -/
  walletBound : ∀ e w, 0 < (s.events e).maxTicketsPerWallet →
    (s.buyerState e w).bought ≤ (s.events e).maxTicketsPerWallet
  /-- Unassigned listing ids hold the zero record. -/
  freshListing : ∀ l, s.nextListingId ≤ l → s.listings l = zeroListing

/-- The deployment state satisfies the invariant. -/
theorem inv_init (ro no mo ma : Nat) (h : ma ≠ 0) :
    Inv (initState ro no mo ma) := by
  constructor <;> simp [initState, zeroEvent, zeroListing, h]

/-- Solidity `setEventActive` preserves the invariant. -/
theorem setEventActive_inv {s s' : ChainState} {a e : Nat} {act : Bool}
    (h : Inv s) (hok : setEventActive s a e act = .ok s') : Inv s' := by
  unfold setEventActive at hok
  dsimp only at hok
  split at hok
  · exact Except.noConfusion hok
  split at hok
  · exact Except.noConfusion hok
  injection hok with h1
  subst h1
  rename_i horg _hauth
  refine ⟨h.wired, h.marketNz, ?_, ?_, h.freshMint, h.freshBuyer,
    h.freshTok, h.stateOwner, ?_, h.freshListing⟩
  · intro e'
    simp only [upd_apply]
    split
    · next heq =>
        subst heq
        exact h.capBound e'
    · exact h.capBound e'
  · intro e' hle
    simp only [upd_apply]
    split
    · next heq =>
        subst heq
        have hz := h.freshEvt e' hle
        rw [hz] at horg
        simp [zeroEvent] at horg
    · exact h.freshEvt e' hle
  · intro e' w
    simp only [upd_apply]
    split
    · next heq =>
        subst heq
        exact h.walletBound e' w
    · exact h.walletBound e' w

-- ========= Success characterizations =========

/-- Successful `mintTicket`: its checks passed and the state is updated at
the fresh token id. -/
theorem mintTicket_ok {s s' : ChainState} {caller toAddr e tok : Nat}
    (hok : mintTicket s caller toAddr e = .ok (s', tok)) :
    caller = s.market ∧ toAddr ≠ 0 ∧ s.owners (s.nextTokenId + 1) = 0 ∧
    tok = s.nextTokenId + 1 ∧
    s' = { s with
            nextTokenId := s.nextTokenId + 1,
            owners := upd s.owners (s.nextTokenId + 1) toAddr,
            ticketEvent := upd s.ticketEvent (s.nextTokenId + 1) e,
            ticketState := upd s.ticketState (s.nextTokenId + 1)
                             TicketState.valid } := by
  unfold mintTicket at hok
  split at hok
  · exact Except.noConfusion hok
  split at hok
  · exact Except.noConfusion hok
  split at hok
  · exact Except.noConfusion hok
  injection hok with h1
  rw [Prod.mk.injEq] at h1
  obtain ⟨h1a, h1b⟩ := h1
  rename_i hc1 hc2 hc3
  exact ⟨not_not.mp hc1, hc2, not_not.mp hc3, h1b.symm, h1a.symm⟩

/-- Successful `markUsed`: caller was the market, the token existed in
state `Valid`, and only its state changed, to `Used`. -/
theorem markUsed_ok {s s' : ChainState} {caller tokenId : Nat}
    (hok : markUsed s caller tokenId = .ok s') :
    caller = s.market ∧ s.owners tokenId ≠ 0 ∧
    s.ticketState tokenId = TicketState.valid ∧
    s' = { s with ticketState := upd s.ticketState tokenId TicketState.used } := by
  unfold markUsed at hok
  split at hok
  · exact Except.noConfusion hok
  split at hok
  · exact Except.noConfusion hok
  split at hok
  · exact Except.noConfusion hok
  injection hok with h1
  rename_i hc1 hc2 hc3
  exact ⟨not_not.mp hc1, hc2, not_not.mp hc3, h1.symm⟩

/-- Successful `transferFrom`: receiver nonzero, spender was the market,
`from_` really owned the token, and only ownership changed. -/
theorem transferFrom_ok {s s' : ChainState} {spender from_ toAddr tokenId : Nat}
    (hok : transferFrom s spender from_ toAddr tokenId = .ok s') :
    toAddr ≠ 0 ∧ spender = s.market ∧ s.owners tokenId = from_ ∧
    s' = { s with owners := upd s.owners tokenId toAddr } := by
  unfold transferFrom at hok
  split at hok
  · exact Except.noConfusion hok
  split at hok
  · split at hok
    · exact Except.noConfusion hok
    · exact Except.noConfusion hok
  split at hok
  · exact Except.noConfusion hok
  injection hok with h1
  rename_i hc1 hc2 hc3
  exact ⟨hc1, not_not.mp hc2, not_not.mp hc3, h1.symm⟩

/-- Successful `createEvent`: all input checks passed, the new event id is
the old `nextEventId`, and the event record is stored there. -/
theorem createEvent_ok {s s' : ChainState} {a : Nat} {name : String}
    {date : Nat} {loc : String} {bp f tt : Nat} {cid : String}
    {mpw cd eid : Nat}
    (hok : createEvent s a name date loc bp f tt cid mpw cd = .ok (s', eid)) :
    name ≠ "" ∧ bp ≠ 0 ∧ tt ≠ 0 ∧ 100 ≤ f ∧ f < 2 ^ 8 ∧ mpw < 2 ^ 16 ∧
    cd < 2 ^ 32 ∧ (0 < mpw → mpw ≤ tt) ∧ eid = s.nextEventId ∧
    s' = { s with
            nextEventId := s.nextEventId + 1,
            events := upd s.events s.nextEventId
              { id := s.nextEventId, name := name, date := date,
                location := loc, basePriceWei := bp, maxResaleFactor := f,
                totalTickets := tt, metadataCid := cid, organizer := a,
                active := true, maxTicketsPerWallet := mpw,
                walletCooldown := cd } } := by
  unfold createEvent at hok
  split at hok
  · exact Except.noConfusion hok
  split at hok
  · exact Except.noConfusion hok
  split at hok
  · exact Except.noConfusion hok
  split at hok
  · exact Except.noConfusion hok
  split at hok
  · exact Except.noConfusion hok
  split at hok
  · exact Except.noConfusion hok
  injection hok with h1
  rw [Prod.mk.injEq] at h1
  obtain ⟨h1a, h1b⟩ := h1
  rename_i hc1 hc2 hc3 hc4 hc5 hc6
  push_neg at hc1 hc6
  exact ⟨hc2, hc3, hc4, by omega, hc1.1, hc1.2.1, hc1.2.2, hc6, h1b.symm, h1a.symm⟩

/-- The combined storage effect of a successful `buyPrimary`. -/
def buyPrimaryEffect (s : ChainState) (sender now eventId : Nat) : ChainState :=
  { s with
      mintedTicketsPerEvent := upd s.mintedTicketsPerEvent eventId
                                 (s.mintedTicketsPerEvent eventId + 1),
      nextTokenId := s.nextTokenId + 1,
      owners := upd s.owners (s.nextTokenId + 1) sender,
      ticketEvent := upd s.ticketEvent (s.nextTokenId + 1) eventId,
      ticketState := upd s.ticketState (s.nextTokenId + 1) TicketState.valid,
      buyerState := upd s.buyerState eventId
                      (upd (s.buyerState eventId) sender
                        { bought := (s.buyerState eventId sender).bought + 1,
                          lastBuyTs := now % 2 ^ 64 }) }

/-- Successful `buyPrimary`: every check of the source body passed on the
pre-state and the state is updated as one batch. -/
theorem buyPrimary_ok {s s' : ChainState} {sender value now eventId : Nat}
    (hok : buyPrimary s sender value now eventId = .ok s') :
    (s.events eventId).organizer ≠ 0 ∧
    (s.events eventId).active = true ∧
    now < (s.events eventId).date ∧
    value = (s.events eventId).basePriceWei ∧
    s.mintedTicketsPerEvent eventId < (s.events eventId).totalTickets ∧
    (0 < (s.events eventId).maxTicketsPerWallet →
      (s.buyerState eventId sender).bought + 1 ≤
        (s.events eventId).maxTicketsPerWallet) ∧
    (0 < (s.events eventId).walletCooldown →
      (s.buyerState eventId sender).lastBuyTs ≠ 0 →
      (s.buyerState eventId sender).lastBuyTs +
        (s.events eventId).walletCooldown ≤ now) ∧
    s.marketAddr = s.market ∧ sender ≠ 0 ∧
    s.owners (s.nextTokenId + 1) = 0 ∧
    s' = buyPrimaryEffect s sender now eventId := by
  unfold buyPrimary at hok
  dsimp only at hok
  split at hok
  · exact Except.noConfusion hok
  rename_i hc1
  split at hok
  · exact Except.noConfusion hok
  rename_i hc2
  split at hok
  · exact Except.noConfusion hok
  rename_i hc3
  split at hok
  · exact Except.noConfusion hok
  rename_i hc4
  split at hok
  · exact Except.noConfusion hok
  rename_i hc5
  split at hok
  · exact Except.noConfusion hok
  rename_i hc6
  split at hok
  · exact Except.noConfusion hok
  rename_i hc7
  split at hok
  · exact Except.noConfusion hok
  rename_i hc8
  split at hok
  · exact Except.noConfusion hok
  next s2 tok heq =>
    injection hok with h1
    obtain ⟨hm1, hm2, hm3, _hm4, hm5⟩ := mintTicket_ok heq
    push_neg at hc6 hc8
    subst hm5
    refine ⟨hc1, by simpa using hc2, not_not.mp hc3, not_not.mp hc4,
      not_not.mp hc5, hc6, fun ha hb => hc8 ha hb, hm1, hm2, hm3, h1.symm⟩

/-- The combined storage effect of a successful `listForResale`. -/
def listForResaleEffect (s : ChainState) (sender tokenId priceWei : Nat) :
    ChainState :=
  { s with
      owners := upd s.owners tokenId s.marketAddr,
      nextListingId := s.nextListingId + 1,
      listings := upd s.listings s.nextListingId
        { tokenId := tokenId, seller := sender, priceWei := priceWei,
          active := true } }

/-- Successful `listForResale`: caller owned a `Valid` ticket, the ask
price is positive and within the resale cap (floor division, with the
`uint256` product in range), and the ticket is escrowed while an active
listing is created at the old `nextListingId`. -/
theorem listForResale_ok {s s' : ChainState} {sender now tokenId priceWei : Nat}
    (hok : listForResale s sender now tokenId priceWei = .ok s') :
    s.owners tokenId = sender ∧ sender ≠ 0 ∧
    s.ticketState tokenId = TicketState.valid ∧ priceWei ≠ 0 ∧
    (s.events (s.ticketEvent tokenId)).organizer ≠ 0 ∧
    (s.events (s.ticketEvent tokenId)).active = true ∧
    now < (s.events (s.ticketEvent tokenId)).date ∧
    (s.events (s.ticketEvent tokenId)).basePriceWei *
      (s.events (s.ticketEvent tokenId)).maxResaleFactor < 2 ^ 256 ∧
    priceWei ≤ (s.events (s.ticketEvent tokenId)).basePriceWei *
      (s.events (s.ticketEvent tokenId)).maxResaleFactor / 100 ∧
    s.marketAddr = s.market ∧
    s' = listForResaleEffect s sender tokenId priceWei := by
  unfold listForResale at hok
  dsimp only at hok
  split at hok
  · exact Except.noConfusion hok
  rename_i hc1
  split at hok
  · exact Except.noConfusion hok
  rename_i hc2
  split at hok
  · exact Except.noConfusion hok
  rename_i hc3
  split at hok
  · exact Except.noConfusion hok
  rename_i hc4
  split at hok
  · exact Except.noConfusion hok
  rename_i hc5
  split at hok
  · exact Except.noConfusion hok
  rename_i hc6
  split at hok
  · exact Except.noConfusion hok
  rename_i hc7
  split at hok
  · exact Except.noConfusion hok
  rename_i hc8
  split at hok
  · exact Except.noConfusion hok
  rename_i hc9
  split at hok
  · exact Except.noConfusion hok
  next s1 heq =>
    injection hok with h1
    obtain ⟨ht1, ht2, ht3, ht4⟩ := transferFrom_ok heq
    subst ht4
    have hown : s.owners tokenId = sender := not_not.mp hc2
    refine ⟨hown, ?_, not_not.mp hc3, hc4, hc5, by simpa using hc6,
      not_not.mp hc7, by omega, not_not.mp hc9, ht2, h1.symm⟩
    intro h0
    rw [h0] at hown
    exact hc1 hown

/-- The combined storage effect of a successful `buyFromResale`. -/
def buyFromResaleEffect (s : ChainState) (sender value lid : Nat) : ChainState :=
  { s with
      listings := upd s.listings lid { s.listings lid with active := false },
      payLog := ((s.listings lid).seller, value) :: s.payLog,
      owners := upd s.owners (s.listings lid).tokenId sender }

/-- Successful `buyFromResale`: the listing was active with a nonzero
seller, payment matched exactly, the event is live, the ticket was in
escrow, and the final state is deactivate-then-pay-then-transfer. -/
theorem buyFromResale_ok {s s' : ChainState} {sender value now lid : Nat}
    (hok : buyFromResale s sender value now lid = .ok s') :
    (s.listings lid).active = true ∧ (s.listings lid).seller ≠ 0 ∧
    value = (s.listings lid).priceWei ∧
    (s.events (s.ticketEvent (s.listings lid).tokenId)).organizer ≠ 0 ∧
    (s.events (s.ticketEvent (s.listings lid).tokenId)).active = true ∧
    now < (s.events (s.ticketEvent (s.listings lid).tokenId)).date ∧
    sender ≠ 0 ∧ s.marketAddr = s.market ∧
    s.owners (s.listings lid).tokenId = s.marketAddr ∧
    s' = buyFromResaleEffect s sender value lid := by
  unfold buyFromResale at hok
  dsimp only at hok
  split at hok
  · exact Except.noConfusion hok
  rename_i hc1
  split at hok
  · exact Except.noConfusion hok
  rename_i hc2
  split at hok
  · exact Except.noConfusion hok
  rename_i hc3
  split at hok
  · exact Except.noConfusion hok
  rename_i hc4
  split at hok
  · exact Except.noConfusion hok
  rename_i hc5
  split at hok
  · exact Except.noConfusion hok
  rename_i hc6
  split at hok
  · exact Except.noConfusion hok
  next s3 heq =>
    injection hok with h1
    obtain ⟨ht1, ht2, ht3, ht4⟩ := transferFrom_ok heq
    subst ht4
    refine ⟨by simpa using hc1, hc2, not_not.mp hc3, hc4, by simpa using hc5,
      not_not.mp hc6, ht1, ht2, ht3, h1.symm⟩

/-- Successful `markTicketUsed`: the ticket's event exists, the caller is
organizer / validator / market owner, the ticket existed in state `Valid`,
and only its state changed, to `Used`. -/
theorem markTicketUsed_ok {s s' : ChainState} {sender tokenId : Nat}
    (hok : markTicketUsed s sender tokenId = .ok s') :
    (s.events (s.ticketEvent tokenId)).organizer ≠ 0 ∧
    (sender = (s.events (s.ticketEvent tokenId)).organizer ∨
      s.validators (s.ticketEvent tokenId) sender = true ∨
      sender = s.marketOwner) ∧
    s.marketAddr = s.market ∧ s.owners tokenId ≠ 0 ∧
    s.ticketState tokenId = TicketState.valid ∧
    s' = { s with ticketState := upd s.ticketState tokenId TicketState.used } := by
  unfold markTicketUsed at hok
  dsimp only at hok
  split at hok
  · exact Except.noConfusion hok
  rename_i hc1
  split at hok
  · exact Except.noConfusion hok
  rename_i hc2
  split at hok
  · exact Except.noConfusion hok
  next s1 heq =>
    injection hok with h1
    obtain ⟨hm1, hm2, hm3, hm4⟩ := markUsed_ok heq
    subst hm4
    exact ⟨hc1, not_not.mp hc2, hm1, hm2, hm3, h1.symm⟩

-- ========= Invariant preservation =========

/-- Solidity `setValidator` preserves the invariant (only `_validators` changes). -/
theorem setValidator_inv {s s' : ChainState} {a e v : Nat} {act : Bool}
    (h : Inv s) (hok : setValidator s a e v act = .ok s') : Inv s' := by
  unfold setValidator at hok
  dsimp only at hok
  split at hok
  · exact Except.noConfusion hok
  split at hok
  · exact Except.noConfusion hok
  split at hok
  · exact Except.noConfusion hok
  injection hok with h1
  subst h1
  exact ⟨h.wired, h.marketNz, h.capBound, h.freshEvt, h.freshMint,
    h.freshBuyer, h.freshTok, h.stateOwner, h.walletBound, h.freshListing⟩

/-- Solidity `createEvent` preserves the invariant. -/
theorem createEvent_inv {s s' : ChainState} {a : Nat} {name : String}
    {date : Nat} {loc : String} {bp f tt : Nat} {cid : String}
    {mpw cd eid : Nat} (h : Inv s)
    (hok : createEvent s a name date loc bp f tt cid mpw cd = .ok (s', eid)) :
    Inv s' := by
  obtain ⟨_, _, _, _, _, _, _, _, _, hs'⟩ := createEvent_ok hok
  subst hs'
  refine ⟨h.wired, h.marketNz, ?_, ?_, ?_, ?_, h.freshTok, h.stateOwner, ?_,
    h.freshListing⟩
  · intro e
    by_cases he : e = s.nextEventId
    · subst he
      have h0 := h.freshMint s.nextEventId (Nat.le_refl _)
      simp [h0]
    · simp only [upd_apply, if_neg he]
      exact h.capBound e
  · intro e hle
    have hle' : s.nextEventId + 1 ≤ e := hle
    have hne : ¬ e = s.nextEventId := by omega
    simp only [upd_apply, if_neg hne]
    exact h.freshEvt e (by omega)
  · intro e hle
    have hle' : s.nextEventId + 1 ≤ e := hle
    exact h.freshMint e (by omega)
  · intro e w hle
    have hle' : s.nextEventId + 1 ≤ e := hle
    exact h.freshBuyer e w (by omega)
  · intro e w
    by_cases he : e = s.nextEventId
    · subst he
      have h0 := h.freshBuyer s.nextEventId w (Nat.le_refl _)
      simp [h0]
    · simp only [upd_apply, if_neg he]
      exact h.walletBound e w

/-- Solidity `buyPrimary` preserves the invariant. -/
theorem buyPrimary_inv {s s' : ChainState} {sender value now eventId : Nat}
    (h : Inv s) (hok : buyPrimary s sender value now eventId = .ok s') :
    Inv s' := by
  obtain ⟨horg, _hact, _hdate, _hval, hcap, hmpw, _hcd, _hw, hsnz, _hfresh, hs'⟩ :=
    buyPrimary_ok hok
  subst hs'
  unfold buyPrimaryEffect
  have hev : eventId < s.nextEventId := by
    by_contra hge
    rw [h.freshEvt eventId (by omega)] at horg
    exact horg rfl
  refine ⟨h.wired, h.marketNz, ?_, h.freshEvt, ?_, ?_, ?_, ?_, ?_,
    h.freshListing⟩
  · intro e
    by_cases he : e = eventId
    · subst he
      simp only [upd_apply]
      split
      · omega
      · next hne => exact absurd trivial hne
    · simp only [upd_apply, if_neg he]
      exact h.capBound e
  · intro e hle
    have hle' : s.nextEventId ≤ e := hle
    have hne : ¬ e = eventId := by omega
    simp only [upd_apply, if_neg hne]
    exact h.freshMint e hle'
  · intro e w hle
    have hle' : s.nextEventId ≤ e := hle
    have hne : ¬ e = eventId := by omega
    simp only [upd_apply, ite_apply, if_neg hne]
    exact h.freshBuyer e w hle'
  · intro t ht
    have ht' : s.nextTokenId + 1 < t := ht
    have hne : ¬ t = s.nextTokenId + 1 := by omega
    simp only [upd_apply, if_neg hne]
    exact h.freshTok t (by omega)
  · intro t
    by_cases ht : t = s.nextTokenId + 1
    · simp [ht, hsnz]
    · simp only [upd_apply, if_neg ht]
      exact h.stateOwner t
  · intro e w
    by_cases he : e = eventId
    · subst he
      simp only [upd_apply, ite_apply, if_pos rfl]
      by_cases hw : w = sender
      · subst hw
        simp only [if_pos rfl]
        intro hpos
        exact hmpw hpos
      · simp only [if_neg hw]
        exact h.walletBound e w
    · simp only [upd_apply, ite_apply, if_neg he]
      exact h.walletBound e w

/-- Solidity `listForResale` preserves the invariant. -/
theorem listForResale_inv {s s' : ChainState} {sender now tokenId priceWei : Nat}
    (h : Inv s) (hok : listForResale s sender now tokenId priceWei = .ok s') :
    Inv s' := by
  obtain ⟨hown, hsnz, hval, _, _, _, _, _, _, _, hs'⟩ := listForResale_ok hok
  subst hs'
  unfold listForResaleEffect
  have htok : tokenId ≤ s.nextTokenId := by
    by_contra hgt
    rw [h.freshTok tokenId (by omega)] at hown
    exact hsnz hown.symm
  refine ⟨h.wired, h.marketNz, h.capBound, h.freshEvt, h.freshMint,
    h.freshBuyer, ?_, ?_, h.walletBound, ?_⟩
  · intro t ht
    have ht' : s.nextTokenId < t := ht
    have hne : ¬ t = tokenId := by omega
    simp only [upd_apply, if_neg hne]
    exact h.freshTok t ht'
  · intro t
    simp only [upd_apply]
    by_cases ht : t = tokenId
    · subst ht
      simp only [if_pos rfl]
      constructor
      · intro _
        exact h.marketNz
      · intro _
        rw [hval]
        simp
    · simp only [if_neg ht]
      exact h.stateOwner t
  · intro l hl
    have hl' : s.nextListingId + 1 ≤ l := hl
    have hne : ¬ l = s.nextListingId := by omega
    simp only [upd_apply, if_neg hne]
    exact h.freshListing l (by omega)

/-- Solidity `buyFromResale` preserves the invariant. -/
theorem buyFromResale_inv {s s' : ChainState} {sender value now lid : Nat}
    (h : Inv s) (hok : buyFromResale s sender value now lid = .ok s') :
    Inv s' := by
  obtain ⟨hact, _, _, _, _, _, hsnz, _, hesc, hs'⟩ := buyFromResale_ok hok
  subst hs'
  unfold buyFromResaleEffect
  have htok : (s.listings lid).tokenId ≤ s.nextTokenId := by
    by_contra hgt
    rw [h.freshTok _ (by omega)] at hesc
    exact h.marketNz hesc.symm
  have hlid : lid < s.nextListingId := by
    by_contra hge
    rw [h.freshListing lid (by omega)] at hact
    exact Bool.noConfusion hact
  refine ⟨h.wired, h.marketNz, h.capBound, h.freshEvt, h.freshMint,
    h.freshBuyer, ?_, ?_, h.walletBound, ?_⟩
  · intro t ht
    have ht' : s.nextTokenId < t := ht
    have hne : ¬ t = (s.listings lid).tokenId := by omega
    simp only [upd_apply, if_neg hne]
    exact h.freshTok t ht'
  · intro t
    simp only [upd_apply]
    by_cases ht : t = (s.listings lid).tokenId
    · subst ht
      simp only [upd_apply]
      constructor
      · intro _
        simp [hsnz]
      · intro _
        simp only [ne_eq]
        exact (h.stateOwner (s.listings lid).tokenId).mpr
          (by rw [hesc]; exact h.marketNz)
    · simp only [upd_apply, if_neg ht]
      exact h.stateOwner t
  · intro l hl
    have hl' : s.nextListingId ≤ l := hl
    have hne : ¬ l = lid := by omega
    simp only [upd_apply, if_neg hne]
    exact h.freshListing l hl'

/-- Solidity `markTicketUsed` preserves the invariant. -/
theorem markTicketUsed_inv {s s' : ChainState} {sender tokenId : Nat}
    (h : Inv s) (hok : markTicketUsed s sender tokenId = .ok s') : Inv s' := by
  obtain ⟨_, _, _, hownz, _hval, hs'⟩ := markTicketUsed_ok hok
  subst hs'
  refine ⟨h.wired, h.marketNz, h.capBound, h.freshEvt, h.freshMint,
    h.freshBuyer, h.freshTok, ?_, h.walletBound, h.freshListing⟩
  intro t
  simp only [upd_apply]
  by_cases ht : t = tokenId
  · subst ht
    simp only [if_pos rfl]
    constructor
    · intro _
      exact hownz
    · intro _
      simp
  · simp only [if_neg ht]
    exact h.stateOwner t

/-- Every successful externally triggered transaction preserves the
invariant. -/
theorem step_inv {s s' : ChainState} (h : Inv s) (hst : step s s') : Inv s' := by
  obtain ⟨op, _hnz, hnm, hok⟩ := hst
  cases op with
  | createEvent a name date loc bp f tt cid mpw cd =>
      have hok' : createEventOp s a name date loc bp f tt cid mpw cd =
        .ok s' := hok
      unfold createEventOp at hok'
      split at hok'
      · exact Except.noConfusion hok'
      next p q heq =>
        injection hok' with h1
        subst h1
        exact createEvent_inv h heq
  | setEventActive a e act =>
      exact setEventActive_inv h hok
  | setValidator a e v act =>
      exact setValidator_inv h hok
  | setMarket a m =>
      have hok' : setMarket s a m = .ok s' := hok
      unfold setMarket at hok'
      split at hok'
      · exact Except.noConfusion hok'
      split at hok'
      · exact Except.noConfusion hok'
      split at hok'
      · exact Except.noConfusion hok'
      next hc =>
        exact absurd (h.wired.symm.trans (not_not.mp hc)) h.marketNz
  | buyPrimary a v now e =>
      exact buyPrimary_inv h hok
  | listForResale a now t p =>
      exact listForResale_inv h hok
  | buyFromResale a v now l =>
      exact buyFromResale_inv h hok
  | markTicketUsed a t =>
      exact markTicketUsed_inv h hok
  | nftMintTicket a toAddr e =>
      have hok' : mintTicketOp s a toAddr e = .ok s' := hok
      unfold mintTicketOp at hok'
      split at hok'
      · exact Except.noConfusion hok'
      next p q heq =>
        obtain ⟨hcall, _⟩ := mintTicket_ok heq
        exact absurd (hcall.trans h.wired) hnm
  | nftMarkUsed a t =>
      have hok' : markUsed s a t = .ok s' := hok
      obtain ⟨hcall, _⟩ := markUsed_ok hok'
      exact absurd (hcall.trans h.wired) hnm
  | nftTransferFrom a f toAddr t =>
      have hok' : transferFrom s a f toAddr t = .ok s' := hok
      obtain ⟨_, hcall, _⟩ := transferFrom_ok hok'
      exact absurd (hcall.trans h.wired) hnm

/-- Every reachable state satisfies the inductive invariant. -/
theorem reachable_inv {s : ChainState} (h : Reachable s) : Inv s := by
  obtain ⟨ro, no, mo, ma, hma, hrtg⟩ := h
  induction hrtg with
  | refl => exact inv_init ro no mo ma hma
  | tail _hab hbc ih => exact step_inv ih hbc

-- ========= Frame facts of single operations =========

/-- Whether an operation is a `buyPrimary` call by wallet `w` for event
`e`. -/
def isBuyPrimaryFor (w e : Nat) : Op → Bool
  | Op.buyPrimary a _ _ e2 => a == w && e2 == e
  | _ => false

/-- Frame facts of any single successful operation: the Market address is
fixed, id counters are monotone, `bought` counters change exactly with
successful `buyPrimary` calls, existing events change at most their
`active` flag, existing ticket states move at most from `Valid` to
`Used`, and existing listings change at most by deactivation. -/
theorem step_frame {s s2 : ChainState} {op : Op} (hok : applyOp s op = .ok s2) :
    s2.marketAddr = s.marketAddr ∧
    s.nextEventId ≤ s2.nextEventId ∧
    s.nextTokenId ≤ s2.nextTokenId ∧
    s.nextListingId ≤ s2.nextListingId ∧
    (∀ e w, (s2.buyerState e w).bought =
      (s.buyerState e w).bought +
        (if isBuyPrimaryFor w e op = true then 1 else 0)) ∧
    (∀ e, e < s.nextEventId →
      ∃ b, s2.events e = { s.events e with active := b }) ∧
    (∀ t, t ≤ s.nextTokenId →
      s2.ticketState t = s.ticketState t ∨
        (s.ticketState t = TicketState.valid ∧
          s2.ticketState t = TicketState.used)) ∧
    (∀ l, l < s.nextListingId →
      s2.listings l = s.listings l ∨
        s2.listings l = { s.listings l with active := false }) := by
  cases op with
  | createEvent a name date loc bp f tt cid mpw cd =>
      have hok' : createEventOp s a name date loc bp f tt cid mpw cd =
        .ok s2 := hok
      unfold createEventOp at hok'
      split at hok'
      · exact Except.noConfusion hok'
      next p q heq =>
        injection hok' with h1
        subst h1
        obtain ⟨_, _, _, _, _, _, _, _, _, hs2⟩ := createEvent_ok heq
        subst hs2
        refine ⟨rfl, Nat.le_succ _, Nat.le_refl _, Nat.le_refl _, ?_, ?_, ?_, ?_⟩
        · intro e w
          simp [isBuyPrimaryFor]
        · intro e he
          have hne : ¬ e = s.nextEventId := by omega
          exact ⟨(s.events e).active, by simp [upd_apply, hne]⟩
        · intro t _
          exact Or.inl rfl
        · intro l _
          exact Or.inl rfl
  | setEventActive a e act =>
      have hok' : setEventActive s a e act = .ok s2 := hok
      unfold setEventActive at hok'
      dsimp only at hok'
      split at hok'
      · exact Except.noConfusion hok'
      split at hok'
      · exact Except.noConfusion hok'
      injection hok' with h1
      subst h1
      refine ⟨rfl, Nat.le_refl _, Nat.le_refl _, Nat.le_refl _, ?_, ?_, ?_, ?_⟩
      · intro e2 w
        simp [isBuyPrimaryFor]
      · intro e2 _
        by_cases he : e2 = e
        · subst he
          exact ⟨act, by simp [upd_apply]⟩
        · exact ⟨(s.events e2).active, by simp [upd_apply, he]⟩
      · intro t _
        exact Or.inl rfl
      · intro l _
        exact Or.inl rfl
  | setValidator a e v act =>
      have hok' : setValidator s a e v act = .ok s2 := hok
      unfold setValidator at hok'
      dsimp only at hok'
      split at hok'
      · exact Except.noConfusion hok'
      split at hok'
      · exact Except.noConfusion hok'
      split at hok'
      · exact Except.noConfusion hok'
      injection hok' with h1
      subst h1
      exact ⟨rfl, Nat.le_refl _, Nat.le_refl _, Nat.le_refl _,
        fun e2 w => by simp [isBuyPrimaryFor],
        fun e2 _ => ⟨(s.events e2).active, rfl⟩,
        fun t _ => Or.inl rfl, fun l _ => Or.inl rfl⟩
  | setMarket a m =>
      have hok' : setMarket s a m = .ok s2 := hok
      unfold setMarket at hok'
      split at hok'
      · exact Except.noConfusion hok'
      split at hok'
      · exact Except.noConfusion hok'
      split at hok'
      · exact Except.noConfusion hok'
      injection hok' with h1
      subst h1
      exact ⟨rfl, Nat.le_refl _, Nat.le_refl _, Nat.le_refl _,
        fun e2 w => by simp [isBuyPrimaryFor],
        fun e2 _ => ⟨(s.events e2).active, rfl⟩,
        fun t _ => Or.inl rfl, fun l _ => Or.inl rfl⟩
  | buyPrimary a v now e =>
      obtain ⟨_, _, _, _, _, _, _, _, _, _, hs2⟩ := buyPrimary_ok hok
      subst hs2
      unfold buyPrimaryEffect
      refine ⟨rfl, Nat.le_refl _, Nat.le_succ _, Nat.le_refl _, ?_, ?_, ?_, ?_⟩
      · intro e2 w
        simp only [isBuyPrimaryFor, upd_apply, ite_apply]
        by_cases he : e2 = e
        · subst he
          by_cases hw : w = a
          · subst hw
            simp
          · have hw' : ¬ a = w := fun hh => hw hh.symm
            simp [hw, hw']
        · have he' : ¬ e = e2 := fun hh => he hh.symm
          simp [he, he']
      · intro e2 _
        exact ⟨(s.events e2).active, rfl⟩
      · intro t ht
        have hne : ¬ t = s.nextTokenId + 1 := by omega
        exact Or.inl (by simp [upd_apply, hne])
      · intro l _
        exact Or.inl rfl
  | listForResale a now t p =>
      obtain ⟨_, _, _, _, _, _, _, _, _, _, hs2⟩ := listForResale_ok hok
      subst hs2
      unfold listForResaleEffect
      refine ⟨rfl, Nat.le_refl _, Nat.le_refl _, Nat.le_succ _, ?_, ?_, ?_, ?_⟩
      · intro e w
        simp [isBuyPrimaryFor]
      · intro e _
        exact ⟨(s.events e).active, rfl⟩
      · intro t2 _
        exact Or.inl rfl
      · intro l hl
        have hne : ¬ l = s.nextListingId := by omega
        exact Or.inl (by simp [upd_apply, hne])
  | buyFromResale a v now l =>
      obtain ⟨_, _, _, _, _, _, _, _, _, hs2⟩ := buyFromResale_ok hok
      subst hs2
      unfold buyFromResaleEffect
      refine ⟨rfl, Nat.le_refl _, Nat.le_refl _, Nat.le_refl _, ?_, ?_, ?_, ?_⟩
      · intro e w
        simp [isBuyPrimaryFor]
      · intro e _
        exact ⟨(s.events e).active, rfl⟩
      · intro t2 _
        exact Or.inl rfl
      · intro l2 _
        by_cases hl : l2 = l
        · subst hl
          exact Or.inr (by simp [upd_apply])
        · exact Or.inl (by simp [upd_apply, hl])
  | markTicketUsed a t =>
      obtain ⟨_, _, _, _, hval, hs2⟩ := markTicketUsed_ok hok
      subst hs2
      refine ⟨rfl, Nat.le_refl _, Nat.le_refl _, Nat.le_refl _, ?_, ?_, ?_, ?_⟩
      · intro e w
        simp [isBuyPrimaryFor]
      · intro e _
        exact ⟨(s.events e).active, rfl⟩
      · intro t2 _
        by_cases ht : t2 = t
        · subst ht
          exact Or.inr ⟨hval, by simp [upd_apply]⟩
        · exact Or.inl (by simp [upd_apply, ht])
      · intro l2 _
        exact Or.inl rfl
  | nftMintTicket a toAddr e =>
      have hok' : mintTicketOp s a toAddr e = .ok s2 := hok
      unfold mintTicketOp at hok'
      split at hok'
      · exact Except.noConfusion hok'
      next p q heq =>
        injection hok' with h1
        subst h1
        obtain ⟨_, _, _, _, hs2⟩ := mintTicket_ok heq
        subst hs2
        refine ⟨rfl, Nat.le_refl _, Nat.le_succ _, Nat.le_refl _, ?_, ?_, ?_, ?_⟩
        · intro e2 w
          simp [isBuyPrimaryFor]
        · intro e2 _
          exact ⟨(s.events e2).active, rfl⟩
        · intro t ht
          have hne : ¬ t = s.nextTokenId + 1 := by omega
          exact Or.inl (by simp [upd_apply, hne])
        · intro l _
          exact Or.inl rfl
  | nftMarkUsed a t =>
      have hok' : markUsed s a t = .ok s2 := hok
      obtain ⟨_, _, hval, hs2⟩ := markUsed_ok hok'
      subst hs2
      refine ⟨rfl, Nat.le_refl _, Nat.le_refl _, Nat.le_refl _, ?_, ?_, ?_, ?_⟩
      · intro e w
        simp [isBuyPrimaryFor]
      · intro e _
        exact ⟨(s.events e).active, rfl⟩
      · intro t2 _
        by_cases ht : t2 = t
        · subst ht
          exact Or.inr ⟨hval, by simp [upd_apply]⟩
        · exact Or.inl (by simp [upd_apply, ht])
      · intro l2 _
        exact Or.inl rfl
  | nftTransferFrom a f toAddr t =>
      have hok' : transferFrom s a f toAddr t = .ok s2 := hok
      obtain ⟨_, _, _, hs2⟩ := transferFrom_ok hok'
      subst hs2
      exact ⟨rfl, Nat.le_refl _, Nat.le_refl _, Nat.le_refl _,
        fun e2 w => by simp [isBuyPrimaryFor],
        fun e2 _ => ⟨(s.events e2).active, rfl⟩,
        fun t2 _ => Or.inl rfl, fun l2 _ => Or.inl rfl⟩

/-- The invariant transports along any chain of successful transactions. -/
theorem rtg_inv {s s' : ChainState} (h : Inv s)
    (hrtg : Relation.ReflTransGen step s s') : Inv s' := by
  induction hrtg with
  | refl => exact h
  | tail _hab hbc ih => exact step_inv ih hbc

/-- A true `isBuyPrimaryFor` test identifies the operation. -/
theorem isBuyPrimaryFor_eq {w e : Nat} {op : Op}
    (h : isBuyPrimaryFor w e op = true) :
    ∃ v now, op = Op.buyPrimary w v now e := by
  cases op <;> simp [isBuyPrimaryFor] at h
  case buyPrimary a v now e2 =>
    obtain ⟨h1, h2⟩ := h
    exact ⟨v, now, by rw [h1, h2]⟩

/-- Number of successful `buyPrimary` transactions by wallet `w` for event
`e` when the operation list `ops` executes in order from `s` (a failed
operation reverts, leaving the state unchanged). -/
def buySuccCount (w e : Nat) : ChainState → List Op → Nat
  | _, [] => 0
  | s, op :: ops =>
    match applyOp s op with
    | .error _ => buySuccCount w e s ops
    | .ok s2 =>
        (if isBuyPrimaryFor w e op = true then 1 else 0) +
          buySuccCount w e s2 ops

/-- Along any future operation sequence, the number of successful
`buyPrimary` calls by wallet `w` for an existing event `e` with per-wallet
limit `N > 0`, plus the wallet's current `bought` counter, never exceeds
`N`. -/
theorem buySuccCount_bound (w e N : Nat) (ops : List Op) :
    ∀ s : ChainState, e < s.nextEventId →
      (s.events e).maxTicketsPerWallet = N → 0 < N →
      (s.buyerState e w).bought ≤ N →
      buySuccCount w e s ops + (s.buyerState e w).bought ≤ N := by
  induction ops with
  | nil =>
      intro s _ _ _ hb
      simpa [buySuccCount] using hb
  | cons op ops ih =>
      intro s he hN hpos hb
      unfold buySuccCount
      cases hap : applyOp s op with
      | error err =>
          simp only [hap]
          exact ih s he hN hpos hb
      | ok s2 =>
          simp only [hap]
          obtain ⟨_, hmono, _, _, hbought, hevt, _, _⟩ := step_frame hap
          have he2 : e < s2.nextEventId := by omega
          obtain ⟨b, hb2⟩ := hevt e he
          have hN2 : (s2.events e).maxTicketsPerWallet = N := by
            rw [hb2]
            exact hN
          have hbeq := hbought e w
          by_cases hbp : isBuyPrimaryFor w e op = true
          · have hcontrib :
                (if isBuyPrimaryFor w e op = true then 1 else 0) = 1 := by
              simp [hbp]
            rw [hcontrib] at hbeq
            obtain ⟨v, now, hop⟩ := isBuyPrimaryFor_eq hbp
            subst hop
            have hap' : buyPrimary s w v now e = .ok s2 := hap
            obtain ⟨_, _, _, _, _, hmpw, _, _, _, _, _⟩ := buyPrimary_ok hap'
            rw [hN] at hmpw
            have hineq := hmpw hpos
            have hb2' : (s2.buyerState e w).bought ≤ N := by omega
            have htail := ih s2 he2 hN2 hpos hb2'
            rw [show (if isBuyPrimaryFor w e (Op.buyPrimary w v now e) = true
              then 1 else 0) = 1 from hcontrib]
            omega
          · have hcontrib :
                (if isBuyPrimaryFor w e op = true then 1 else 0) = 0 := by
              simp [hbp]
            rw [hcontrib] at hbeq
            have hb2' : (s2.buyerState e w).bought ≤ N := by omega
            have htail := ih s2 he2 hN2 hpos hb2'
            rw [hcontrib]
            omega

/-- A `Used` ticket stays `Used` under every future transaction. -/
theorem used_persists {s s' : ChainState} (hInv : Inv s)
    (hrtg : Relation.ReflTransGen step s s') :
    ∀ t, s.ticketState t = TicketState.used →
      s'.ticketState t = TicketState.used := by
  induction hrtg with
  | refl => exact fun t h => h
  | tail hab hbc ih =>
      rename_i b c
      intro t hu
      have hub := ih t hu
      have hInvb := rtg_inv hInv hab
      obtain ⟨op, _, _, hok⟩ := hbc
      obtain ⟨_, _, _, _, _, _, hts, _⟩ := step_frame hok
      have hown := (hInvb.stateOwner t).mp (by rw [hub]; simp)
      have htle : t ≤ b.nextTokenId := by
        by_contra hgt
        exact hown (hInvb.freshTok t (by omega))
      rcases hts t htle with heq | ⟨hv, _⟩
      · rw [heq]
        exact hub
      · rw [hub] at hv
        exact TicketState.noConfusion hv

/-- A `Cancelled` ticket stays `Cancelled` under every future
transaction. -/
theorem cancelled_persists {s s' : ChainState} (hInv : Inv s)
    (hrtg : Relation.ReflTransGen step s s') :
    ∀ t, s.ticketState t = TicketState.cancelled →
      s'.ticketState t = TicketState.cancelled := by
  induction hrtg with
  | refl => exact fun t h => h
  | tail hab hbc ih =>
      rename_i b c
      intro t hu
      have hub := ih t hu
      have hInvb := rtg_inv hInv hab
      obtain ⟨op, _, _, hok⟩ := hbc
      obtain ⟨_, _, _, _, _, _, hts, _⟩ := step_frame hok
      have hown := (hInvb.stateOwner t).mp (by rw [hub]; simp)
      have htle : t ≤ b.nextTokenId := by
        by_contra hgt
        exact hown (hInvb.freshTok t (by omega))
      rcases hts t htle with heq | ⟨hv, _⟩
      · rw [heq]
        exact hub
      · rw [hub] at hv
        exact TicketState.noConfusion hv

/-- A deactivated listing with an assigned id stays deactivated under
every future transaction. -/
theorem inactive_persists {s s' : ChainState}
    (hrtg : Relation.ReflTransGen step s s') :
    ∀ l, l < s.nextListingId → (s.listings l).active = false →
      l < s'.nextListingId ∧ (s'.listings l).active = false := by
  induction hrtg with
  | refl => exact fun l hl h => ⟨hl, h⟩
  | tail hab hbc ih =>
      intro l hl hf
      obtain ⟨hlb, hfb⟩ := ih l hl hf
      obtain ⟨op, _, _, hok⟩ := hbc
      obtain ⟨_, _, _, hmono, _, _, _, hls⟩ := step_frame hok
      refine ⟨by omega, ?_⟩
      rcases hls l hlb with heq | heq
      · rw [heq]
        exact hfb
      · rw [heq]

-- ========= Failure characterizations =========

/-- With the event at capacity, `buyPrimary` can only revert. -/
theorem buyPrimary_full_fails {s : ChainState} {sender value now eventId : Nat}
    (hfull : s.mintedTicketsPerEvent eventId =
      (s.events eventId).totalTickets) :
    ∃ err, buyPrimary s sender value now eventId = .error err := by
  cases hb : buyPrimary s sender value now eventId with
  | ok s2 =>
      obtain ⟨_, _, _, _, hcap, _⟩ := buyPrimary_ok hb
      omega
  | error err => exact ⟨err, rfl⟩

/-- Solidity `markUsed` by the market on an existing non-`Valid` ticket reverts
with the invalid-state error. -/
theorem markUsed_not_valid {s : ChainState} {caller t : Nat}
    (hc : caller = s.market) (hown : s.owners t ≠ 0)
    (hst : s.ticketState t ≠ TicketState.valid) :
    markUsed s caller t = .error .ticketNoValidoParaUsar := by
  unfold markUsed
  rw [if_neg (by simp [hc]), if_neg hown, if_pos hst]

/-- Solidity `markUsed` by a caller other than the market reverts with the
only-market error. -/
theorem markUsed_not_market {s : ChainState} {caller t : Nat}
    (hc : caller ≠ s.market) :
    markUsed s caller t = .error .soloMercado := by
  unfold markUsed
  rw [if_pos hc]

/-- With the event live, the payment exact, capacity available and the
per-wallet limit exhausted, `buyPrimary` reverts with the wallet-limit
error. -/
theorem buyPrimary_wallet_limit {s : ChainState}
    {sender value now eventId : Nat}
    (horg : (s.events eventId).organizer ≠ 0)
    (hact : (s.events eventId).active = true)
    (hdate : now < (s.events eventId).date)
    (hval : value = (s.events eventId).basePriceWei)
    (hcap : s.mintedTicketsPerEvent eventId < (s.events eventId).totalTickets)
    (hN : 0 < (s.events eventId).maxTicketsPerWallet)
    (hfull : (s.events eventId).maxTicketsPerWallet ≤
      (s.buyerState eventId sender).bought) :
    buyPrimary s sender value now eventId = .error .limitePorCartera := by
  unfold buyPrimary
  dsimp only
  rw [if_neg horg, if_neg (by simp [hact]), if_neg (not_not_intro hdate),
    if_neg (not_not_intro hval), if_neg (not_not_intro hcap),
    if_pos ⟨hN, by omega⟩]

/-- With the event live and the paid amount different from the base
price, `buyPrimary` reverts with the payment error. -/
theorem buyPrimary_payment_mismatch {s : ChainState}
    {sender value now eventId : Nat}
    (horg : (s.events eventId).organizer ≠ 0)
    (hact : (s.events eventId).active = true)
    (hdate : now < (s.events eventId).date)
    (hv : value ≠ (s.events eventId).basePriceWei) :
    buyPrimary s sender value now eventId = .error .precioIncorrecto := by
  unfold buyPrimary
  dsimp only
  rw [if_neg horg, if_neg (by simp [hact]), if_neg (not_not_intro hdate),
    if_pos hv]

/-- With an active listing by a nonzero seller and the paid amount
different from the ask price, `buyFromResale` reverts with the payment
error. -/
theorem buyFromResale_payment_mismatch {s : ChainState}
    {sender value now lid : Nat}
    (hact : (s.listings lid).active = true)
    (hsell : (s.listings lid).seller ≠ 0)
    (hv : value ≠ (s.listings lid).priceWei) :
    buyFromResale s sender value now lid = .error .precioIncorrecto := by
  unfold buyFromResale
  dsimp only
  rw [if_neg (by simp [hact]), if_neg hsell, if_pos hv]

/-- Solidity `buyFromResale` on an inactive listing reverts immediately with the
inactive-listing error. -/
theorem buyFromResale_inactive {s : ChainState} {sender value now lid : Nat}
    (hin : (s.listings lid).active = false) :
    buyFromResale s sender value now lid = .error .listingInactiva := by
  unfold buyFromResale
  dsimp only
  rw [if_pos hin]

/-- When the ticket's event exists and the caller is neither the
organizer, a validator, nor the market owner, `markTicketUsed` reverts
with the authorization error. -/
theorem markTicketUsed_unauthorized {s : ChainState} {sender t : Nat}
    (horg : (s.events (s.ticketEvent t)).organizer ≠ 0)
    (hnoauth : ¬ (sender = (s.events (s.ticketEvent t)).organizer ∨
      s.validators (s.ticketEvent t) sender = true ∨
      sender = s.marketOwner)) :
    markTicketUsed s sender t = .error .noAutorizado := by
  unfold markTicketUsed
  dsimp only
  rw [if_neg horg, if_pos hnoauth]

/-- A resale ask price above the integer cap can only revert. -/
theorem listForResale_above_cap {s : ChainState}
    {sender now tokenId priceWei : Nat}
    (hcap : (s.events (s.ticketEvent tokenId)).basePriceWei *
      (s.events (s.ticketEvent tokenId)).maxResaleFactor / 100 < priceWei) :
    ∃ err, listForResale s sender now tokenId priceWei = .error err := by
  cases hb : listForResale s sender now tokenId priceWei with
  | ok s2 =>
      obtain ⟨_, _, _, _, _, _, _, _, hle, _⟩ := listForResale_ok hb
      omega
  | error err => exact ⟨err, rfl⟩

-- ========= buyPrimary agrees with its micro-step run =========

/-- Fold a rollback-free micro run into the transaction-level result:
success keeps the final state, an error discards it (revert). -/
def microResult (r : ChainState × Option Err) : Except Err ChainState :=
  match r with
  | (s', Option.none) => .ok s'
  | (_, Option.some e) => .error e

/-- Solidity `buyPrimary` computes exactly the revert-folded result of its
source-ordered micro-step list. -/
theorem buyPrimary_eq_micro (s : ChainState) (sender value now eventId : Nat) :
    buyPrimary s sender value now eventId =
      microResult (runMicro s (buyPrimaryMicro sender value now eventId)) := by
  unfold buyPrimary buyPrimaryMicro microResult mintTicket
  dsimp only
  simp only [runMicro]
  dsimp only
  by_cases hc1 : (s.events eventId).organizer = 0
  · rw [if_pos hc1, if_pos hc1]
  rw [if_neg hc1, if_neg hc1]
  by_cases hc2 : (s.events eventId).active = false
  · rw [if_pos hc2, if_pos hc2]
  rw [if_neg hc2, if_neg hc2]
  by_cases hc3 : ¬ now < (s.events eventId).date
  · rw [if_pos hc3, if_pos hc3]
  rw [if_neg hc3, if_neg hc3]
  by_cases hc4 : ¬ value = (s.events eventId).basePriceWei
  · rw [if_pos hc4, if_pos hc4]
  rw [if_neg hc4, if_neg hc4]
  by_cases hc5 : ¬ s.mintedTicketsPerEvent eventId <
    (s.events eventId).totalTickets
  · rw [if_pos hc5, if_pos hc5]
  rw [if_neg hc5, if_neg hc5]
  by_cases hc6 : 0 < (s.events eventId).maxTicketsPerWallet ∧
    ¬ (s.buyerState eventId sender).bought + 1 ≤
      (s.events eventId).maxTicketsPerWallet
  · rw [if_pos hc6, if_pos hc6]
  rw [if_neg hc6, if_neg hc6]
  by_cases hc7 : 0 < (s.events eventId).walletCooldown ∧
    (s.buyerState eventId sender).lastBuyTs ≠ 0 ∧
    2 ^ 64 ≤ (s.buyerState eventId sender).lastBuyTs +
      (s.events eventId).walletCooldown
  · rw [if_pos hc7, if_pos hc7]
  rw [if_neg hc7, if_neg hc7]
  by_cases hc8 : 0 < (s.events eventId).walletCooldown ∧
    (s.buyerState eventId sender).lastBuyTs ≠ 0 ∧
    ¬ (s.buyerState eventId sender).lastBuyTs +
      (s.events eventId).walletCooldown ≤ now
  · rw [if_pos hc8, if_pos hc8]
  rw [if_neg hc8, if_neg hc8]
  by_cases hc9 : s.marketAddr ≠ s.market
  · rw [if_pos hc9, if_pos hc9]
  rw [if_neg hc9, if_neg hc9]
  by_cases hc10 : sender = 0
  · rw [if_pos hc10, if_pos hc10]
  rw [if_neg hc10, if_neg hc10]
  by_cases hc11 : s.owners (s.nextTokenId + 1) ≠ 0
  · rw [if_pos hc11, if_pos hc11]
  rw [if_neg hc11, if_neg hc11]

/-- Under the invariant and a nonzero caller, a failing micro run of
`buyPrimary` fails at one of its leading validation checks, before any
mutation happened: the state at the failure point is still the
pre-state. -/
theorem buyPrimary_micro_fail {s : ChainState}
    {sender value now eventId : Nat} (hInv : Inv s) (hs : sender ≠ 0) :
    ∀ s' e, runMicro s (buyPrimaryMicro sender value now eventId) =
      (s', Option.some e) → s' = s := by
  have hw : ¬ s.marketAddr ≠ s.market := not_not_intro hInv.wired.symm
  have hfresh : ¬ s.owners (s.nextTokenId + 1) ≠ 0 :=
    not_not_intro (hInv.freshTok _ (Nat.lt_succ_self _))
  intro s' e hrun
  unfold buyPrimaryMicro at hrun
  simp only [runMicro] at hrun
  dsimp only at hrun
  by_cases hc1 : (s.events eventId).organizer = 0
  · rw [if_pos hc1] at hrun
    have h1 : ((s, Option.some Err.eventoInexistente) :
      ChainState × Option Err) = (s', Option.some e) := hrun
    injection h1 with ha _
    exact ha.symm
  rw [if_neg hc1] at hrun
  by_cases hc2 : (s.events eventId).active = false
  · rw [if_pos hc2] at hrun
    have h1 : ((s, Option.some Err.eventoInactivo) :
      ChainState × Option Err) = (s', Option.some e) := hrun
    injection h1 with ha _
    exact ha.symm
  rw [if_neg hc2] at hrun
  by_cases hc3 : ¬ now < (s.events eventId).date
  · rw [if_pos hc3] at hrun
    have h1 : ((s, Option.some Err.eventoYaPaso) :
      ChainState × Option Err) = (s', Option.some e) := hrun
    injection h1 with ha _
    exact ha.symm
  rw [if_neg hc3] at hrun
  by_cases hc4 : ¬ value = (s.events eventId).basePriceWei
  · rw [if_pos hc4] at hrun
    have h1 : ((s, Option.some Err.precioIncorrecto) :
      ChainState × Option Err) = (s', Option.some e) := hrun
    injection h1 with ha _
    exact ha.symm
  rw [if_neg hc4] at hrun
  by_cases hc5 : ¬ s.mintedTicketsPerEvent eventId <
    (s.events eventId).totalTickets
  · rw [if_pos hc5] at hrun
    have h1 : ((s, Option.some Err.noQuedanTickets) :
      ChainState × Option Err) = (s', Option.some e) := hrun
    injection h1 with ha _
    exact ha.symm
  rw [if_neg hc5] at hrun
  by_cases hc6 : 0 < (s.events eventId).maxTicketsPerWallet ∧
    ¬ (s.buyerState eventId sender).bought + 1 ≤
      (s.events eventId).maxTicketsPerWallet
  · rw [if_pos hc6] at hrun
    have h1 : ((s, Option.some Err.limitePorCartera) :
      ChainState × Option Err) = (s', Option.some e) := hrun
    injection h1 with ha _
    exact ha.symm
  rw [if_neg hc6] at hrun
  by_cases hc7 : 0 < (s.events eventId).walletCooldown ∧
    (s.buyerState eventId sender).lastBuyTs ≠ 0 ∧
    2 ^ 64 ≤ (s.buyerState eventId sender).lastBuyTs +
      (s.events eventId).walletCooldown
  · rw [if_pos hc7] at hrun
    have h1 : ((s, Option.some Err.desbordamiento) :
      ChainState × Option Err) = (s', Option.some e) := hrun
    injection h1 with ha _
    exact ha.symm
  rw [if_neg hc7] at hrun
  by_cases hc8 : 0 < (s.events eventId).walletCooldown ∧
    (s.buyerState eventId sender).lastBuyTs ≠ 0 ∧
    ¬ (s.buyerState eventId sender).lastBuyTs +
      (s.events eventId).walletCooldown ≤ now
  · rw [if_pos hc8] at hrun
    have h1 : ((s, Option.some Err.esperaCooldown) :
      ChainState × Option Err) = (s', Option.some e) := hrun
    injection h1 with ha _
    exact ha.symm
  rw [if_neg hc8] at hrun
  rw [if_neg hw] at hrun
  rw [if_neg hs] at hrun
  rw [if_neg hfresh] at hrun
  have h1 : ((buyPrimaryEffect s sender now eventId, (Option.none : Option Err)) :
    ChainState × Option Err) = (s', Option.some e) := hrun
  injection h1 with _ hb
  exact Option.noConfusion hb

-- ========= Concrete demonstration states =========

/-- Boolean success view of a transaction result. -/
def resultOk : Except Err ChainState → Bool
  | .ok _ => true
  | .error _ => false

/-- Demo deployment: registry owner 1, NFT owner 1, market owner 9, the
Market contract at address 2. -/
def w0 : ChainState := initState 1 1 9 2

/-- Create demo event 0: organizer 7, base price 100 wei, resale factor
130 %, capacity 2, one ticket per wallet, no cooldown. -/
def opCreate0 : Op := Op.createEvent 7 "Concierto" 1000 "A" 100 130 2 "c0" 1 0

/-- Create demo event 1: organizer 7, base price 100 wei, capacity 5, no
wallet limit, cooldown 10 seconds. -/
def opCreate1 : Op := Op.createEvent 7 "Feria" 2000 "B" 100 130 5 "c1" 0 10

/-- Wallet 5 buys a primary ticket of event 0 at time 10 paying 100. -/
def opBuy0 : Op := Op.buyPrimary 5 100 10 0

def w1 : ChainState := applyResult w0 (applyOp w0 opCreate0)

def w2 : ChainState := applyResult w1 (applyOp w1 opCreate1)

def w3 : ChainState := applyResult w2 (applyOp w2 opBuy0)

/-- Wallet 5 lists its ticket 1 for resale at 125 (cap is 130). -/
def opList1 : Op := Op.listForResale 5 10 1 125

def w4 : ChainState := applyResult w3 (applyOp w3 opList1)

/-- Wallet 6 buys listing 0 paying 125. -/
def opResale0 : Op := Op.buyFromResale 6 125 10 0

def w5 : ChainState := applyResult w4 (applyOp w4 opResale0)

/-- First cooldown purchase: wallet 6 buys event 1 at time 20. -/
def cw1 : ChainState := applyResult w3 (applyOp w3 (Op.buyPrimary 6 100 20 1))

/-- Second cooldown purchase: wallet 6 buys event 1 again at time 31. -/
def cw2 : ChainState := applyResult cw1 (applyOp cw1 (Op.buyPrimary 6 100 31 1))

/-- Organizer 7 marks ticket 1 used (admission) from `w3`. -/
def mu1 : ChainState := applyResult w3 (applyOp w3 (Op.markTicketUsed 7 1))

theorem w0_reachable : Reachable w0 :=
  ⟨1, 1, 9, 2, by decide, Relation.ReflTransGen.refl⟩

theorem w3_reachable : Reachable w3 := by
  refine ⟨1, 1, 9, 2, by decide, ?_⟩
  have h1 : step w0 w1 := ⟨opCreate0, by decide, by decide, rfl⟩
  have h2 : step w1 w2 := ⟨opCreate1, by decide, by decide, rfl⟩
  have h3 : step w2 w3 := ⟨opBuy0, by decide, by decide, rfl⟩
  exact Relation.ReflTransGen.tail (Relation.ReflTransGen.tail
    (Relation.ReflTransGen.tail Relation.ReflTransGen.refl h1) h2) h3

theorem w4_reachable : Reachable w4 := by
  obtain ⟨ro, no, mo, ma, hma, hrtg⟩ := w3_reachable
  have h4 : step w3 w4 := ⟨opList1, by decide, by decide, rfl⟩
  exact ⟨ro, no, mo, ma, hma, Relation.ReflTransGen.tail hrtg h4⟩

-- ========= Claim theorems =========

/-- C1: For every event, the minted-ticket count never exceeds the
event's total capacity, and any `buyPrimary` call made when the minted
count equals capacity reverts without minting a ticket or changing
state. -/
theorem C1_capacity_never_exceeded (s : ChainState) (h : Reachable s) :
    (∀ e, s.mintedTicketsPerEvent e ≤ (s.events e).totalTickets) ∧
    (∀ sender value now e,
      s.mintedTicketsPerEvent e = (s.events e).totalTickets →
      ∃ err, buyPrimary s sender value now e = .error err ∧
        applyResult s (buyPrimary s sender value now e) = s) := by
  have hInv := reachable_inv h
  refine ⟨hInv.capBound, ?_⟩
  intro sender value now e hfull
  obtain ⟨err, herr⟩ := buyPrimary_full_fails hfull
  refine ⟨err, herr, ?_⟩
  rw [herr]
  rfl

theorem C1_capacity_never_exceeded_witness :
    Reachable w3 ∧
    ((∀ e, w3.mintedTicketsPerEvent e ≤ (w3.events e).totalTickets) ∧
     (∀ sender value now e,
        w3.mintedTicketsPerEvent e = (w3.events e).totalTickets →
        ∃ err, buyPrimary w3 sender value now e = .error err ∧
          applyResult w3 (buyPrimary w3 sender value now e) = w3)) :=
  ⟨w3_reachable, C1_capacity_never_exceeded w3 w3_reachable⟩

/-- C2: Ticket states move monotonically: `markUsed` succeeds only from
`Valid`, moving the ticket to `Used`; immediately afterwards a second
`markUsed` on the same ticket always fails — on the market path with the
state-conflict error — and over any sequence of further transactions a
`Used` or `Cancelled` ticket never leaves that state, so `markUsed` can
never succeed on it again. -/
theorem C2_monotonic_ticket_states (s : ChainState) (h : Reachable s) :
    (∀ caller t s2, markUsed s caller t = .ok s2 →
      s.ticketState t = TicketState.valid ∧
      s2.ticketState t = TicketState.used ∧
      (∀ c2, resultOk (markUsed s2 c2 t) = false) ∧
      markUsed s2 s2.market t = .error .ticketNoValidoParaUsar ∧
      Err.kind .ticketNoValidoParaUsar = ErrClass.stateConflict) ∧
    (∀ s2, Relation.ReflTransGen step s s2 → ∀ t,
      (s.ticketState t = TicketState.used →
        s2.ticketState t = TicketState.used ∧
        ∀ c2, resultOk (markUsed s2 c2 t) = false) ∧
      (s.ticketState t = TicketState.cancelled →
        s2.ticketState t = TicketState.cancelled)) := by
  have hInv := reachable_inv h
  constructor
  · intro caller t s2 hok
    obtain ⟨_hc, hown, hval, hs2⟩ := markUsed_ok hok
    subst hs2
    have hused : (upd s.ticketState t TicketState.used) t =
        TicketState.used := by simp [upd_apply]
    refine ⟨hval, hused, ?_, ?_, rfl⟩
    · intro c2
      by_cases hm : c2 = s.market
      · have hfail : markUsed
            { s with ticketState := upd s.ticketState t TicketState.used }
            c2 t = .error .ticketNoValidoParaUsar :=
          markUsed_not_valid hm hown (by simp [upd_apply])
        simp [hfail, resultOk]
      · have hfail : markUsed
            { s with ticketState := upd s.ticketState t TicketState.used }
            c2 t = .error .soloMercado :=
          markUsed_not_market hm
        simp [hfail, resultOk]
    · exact markUsed_not_valid rfl hown (by simp [upd_apply])
  · intro s2 hrtg t
    constructor
    · intro hu
      have hu2 := used_persists hInv hrtg t hu
      refine ⟨hu2, ?_⟩
      intro c2
      cases hres : markUsed s2 c2 t with
      | ok s3 =>
          obtain ⟨_, _, hval2, _⟩ := markUsed_ok hres
          rw [hu2] at hval2
          exact TicketState.noConfusion hval2
      | error err => rfl
    · exact cancelled_persists hInv hrtg t

theorem C2_monotonic_ticket_states_witness :
    Reachable w3 ∧
    ((∀ caller t s2, markUsed w3 caller t = .ok s2 →
      w3.ticketState t = TicketState.valid ∧
      s2.ticketState t = TicketState.used ∧
      (∀ c2, resultOk (markUsed s2 c2 t) = false) ∧
      markUsed s2 s2.market t = .error .ticketNoValidoParaUsar ∧
      Err.kind .ticketNoValidoParaUsar = ErrClass.stateConflict) ∧
    (∀ s2, Relation.ReflTransGen step w3 s2 → ∀ t,
      (w3.ticketState t = TicketState.used →
        s2.ticketState t = TicketState.used ∧
        ∀ c2, resultOk (markUsed s2 c2 t) = false) ∧
      (w3.ticketState t = TicketState.cancelled →
        s2.ticketState t = TicketState.cancelled))) :=
  ⟨w3_reachable, C2_monotonic_ticket_states w3 w3_reachable⟩

/-- C3: In `buyFromResale`, the listing is deactivated strictly before
the payment to the seller and before the ticket transfer to the buyer:
both later steps run against the already-deactivated state. Consequently
a purchased listing is inactive and no later `buyFromResale` of the same
listing id can ever succeed again, failing with the inactive-listing
error. -/
theorem C3_deactivate_before_pay (s : ChainState) (h : Reachable s)
    (sender value now lid : Nat) (s2 : ChainState)
    (hok : buyFromResale s sender value now lid = .ok s2) :
    (((deactivateListing s lid).listings lid).active = false ∧
      transferFrom (payTo (deactivateListing s lid)
          (s.listings lid).seller value)
        s.marketAddr s.marketAddr sender (s.listings lid).tokenId =
          .ok s2) ∧
    (s2.listings lid).active = false ∧
    (∀ s3, Relation.ReflTransGen step s2 s3 → ∀ sender2 value2 now2,
      buyFromResale s3 sender2 value2 now2 lid =
        .error .listingInactiva) := by
  have hInv := reachable_inv h
  obtain ⟨hact, _hsell, _hv, _, _, _, hsnz, hmkt, hesc, hs2⟩ :=
    buyFromResale_ok hok
  have hlid : lid < s.nextListingId := by
    by_contra hge
    rw [hInv.freshListing lid (by omega)] at hact
    exact Bool.noConfusion hact
  refine ⟨⟨by simp [deactivateListing, upd_apply], ?_⟩, ?_, ?_⟩
  · unfold transferFrom
    simp only [payTo, deactivateListing]
    rw [if_neg hsnz, if_neg (not_not_intro hmkt), if_neg (not_not_intro hesc)]
    rw [hs2]
    rfl
  · rw [hs2]
    simp [buyFromResaleEffect, upd_apply]
  · intro s3 hrtg sender2 value2 now2
    have hin2 : (s2.listings lid).active = false := by
      rw [hs2]
      simp [buyFromResaleEffect, upd_apply]
    have hlid2 : lid < s2.nextListingId := by
      rw [hs2]
      exact hlid
    obtain ⟨_, hin3⟩ := inactive_persists hrtg lid hlid2 hin2
    exact buyFromResale_inactive hin3

theorem C3_deactivate_before_pay_witness :
    Reachable w4 ∧ buyFromResale w4 6 125 10 0 = .ok w5 ∧
    ((((deactivateListing w4 0).listings 0).active = false ∧
      transferFrom (payTo (deactivateListing w4 0)
          (w4.listings 0).seller 125) w4.marketAddr w4.marketAddr 6
          (w4.listings 0).tokenId = .ok w5) ∧
    (w5.listings 0).active = false ∧
    (∀ s3, Relation.ReflTransGen step w5 s3 → ∀ sender2 value2 now2,
      buyFromResale s3 sender2 value2 now2 0 =
        .error .listingInactiva)) :=
  ⟨w4_reachable, rfl, C3_deactivate_before_pay w4 w4_reachable 6 125 10 0 w5 rfl⟩

/-- C4: `listForResale` accepts an ask price only when it is at most
`floor(basePrice * maxResaleFactor / 100)` (integer floor division), in
which case the listing stores that exact price; an ask price above the
cap always fails (rejected, never clamped), creates no listing and
leaves the state unchanged. -/
theorem C4_resale_price_cap :
    (∀ s sender now tokenId priceWei s2,
      listForResale s sender now tokenId priceWei = .ok s2 →
      priceWei ≤ (s.events (s.ticketEvent tokenId)).basePriceWei *
        (s.events (s.ticketEvent tokenId)).maxResaleFactor / 100 ∧
      s2.listings s.nextListingId =
        { tokenId := tokenId, seller := sender, priceWei := priceWei,
          active := true }) ∧
    (∀ s sender now tokenId priceWei,
      (s.events (s.ticketEvent tokenId)).basePriceWei *
        (s.events (s.ticketEvent tokenId)).maxResaleFactor / 100 <
          priceWei →
      ∃ err, listForResale s sender now tokenId priceWei = .error err ∧
        applyResult s (listForResale s sender now tokenId priceWei) = s) := by
  constructor
  · intro s sender now tokenId priceWei s2 hok
    obtain ⟨_, _, _, _, _, _, _, _, hle, _, hs2⟩ := listForResale_ok hok
    subst hs2
    exact ⟨hle, by simp [listForResaleEffect, upd_apply]⟩
  · intro s sender now tokenId priceWei hgt
    obtain ⟨err, herr⟩ := listForResale_above_cap hgt
    refine ⟨err, herr, ?_⟩
    rw [herr]
    rfl

theorem C4_resale_price_cap_witness :
    (listForResale w3 5 10 1 125 = .ok w4 ∧
      125 ≤ (w3.events (w3.ticketEvent 1)).basePriceWei *
        (w3.events (w3.ticketEvent 1)).maxResaleFactor / 100) ∧
    ((w3.events (w3.ticketEvent 1)).basePriceWei *
        (w3.events (w3.ticketEvent 1)).maxResaleFactor / 100 < 131 ∧
      ∃ err, listForResale w3 5 10 1 131 = .error err ∧
        applyResult w3 (listForResale w3 5 10 1 131) = w3) :=
  ⟨⟨rfl, (C4_resale_price_cap.1 w3 5 10 1 125 w4 rfl).1⟩,
   ⟨by decide, C4_resale_price_cap.2 w3 5 10 1 131 (by decide)⟩⟩

/-- C5: For an event configured with `maxPerWallet = N > 0`, a wallet's
bought counter never exceeds N, at most `N - bought` further `buyPrimary`
calls by that wallet for that event can ever succeed over any future
operation sequence (so at most N in total), and once the counter has
reached N any further attempt fails — an otherwise-valid attempt with
exactly the per-wallet state-conflict error — and mints nothing. -/
theorem C5_per_wallet_limit (s : ChainState) (h : Reachable s) (e w : Nat)
    (horg : (s.events e).organizer ≠ 0)
    (hN : 0 < (s.events e).maxTicketsPerWallet) :
    (s.buyerState e w).bought ≤ (s.events e).maxTicketsPerWallet ∧
    (∀ ops : List Op,
      buySuccCount w e s ops + (s.buyerState e w).bought ≤
        (s.events e).maxTicketsPerWallet) ∧
    (∀ value now,
      (s.events e).maxTicketsPerWallet ≤ (s.buyerState e w).bought →
      resultOk (buyPrimary s w value now e) = false ∧
      ((s.events e).active = true → now < (s.events e).date →
        value = (s.events e).basePriceWei →
        s.mintedTicketsPerEvent e < (s.events e).totalTickets →
        buyPrimary s w value now e = .error .limitePorCartera ∧
        Err.kind .limitePorCartera = ErrClass.stateConflict)) := by
  have hInv := reachable_inv h
  have hb := hInv.walletBound e w hN
  have he : e < s.nextEventId := by
    by_contra hge
    rw [hInv.freshEvt e (by omega)] at horg
    exact horg rfl
  refine ⟨hb, ?_, ?_⟩
  · intro ops
    exact buySuccCount_bound w e _ ops s he rfl hN hb
  · intro value now hfull
    constructor
    · cases hbp : buyPrimary s w value now e with
      | ok s2 =>
          obtain ⟨_, _, _, _, _, hmpw, _⟩ := buyPrimary_ok hbp
          exact absurd (hmpw hN) (by omega)
      | error err => rfl
    · intro hact hdate hval hcap
      exact ⟨buyPrimary_wallet_limit horg hact hdate hval hcap hN hfull, rfl⟩

theorem C5_per_wallet_limit_witness :
    Reachable w3 ∧ (w3.events 0).organizer ≠ 0 ∧
    0 < (w3.events 0).maxTicketsPerWallet ∧
    ((w3.buyerState 0 5).bought ≤ (w3.events 0).maxTicketsPerWallet ∧
    (∀ ops : List Op,
      buySuccCount 5 0 w3 ops + (w3.buyerState 0 5).bought ≤
        (w3.events 0).maxTicketsPerWallet) ∧
    (∀ value now,
      (w3.events 0).maxTicketsPerWallet ≤ (w3.buyerState 0 5).bought →
      resultOk (buyPrimary w3 5 value now 0) = false ∧
      ((w3.events 0).active = true → now < (w3.events 0).date →
        value = (w3.events 0).basePriceWei →
        w3.mintedTicketsPerEvent 0 < (w3.events 0).totalTickets →
        buyPrimary w3 5 value now 0 = .error .limitePorCartera ∧
        Err.kind .limitePorCartera = ErrClass.stateConflict))) :=
  ⟨w3_reachable, by decide, by decide,
   C5_per_wallet_limit w3 w3_reachable 0 5 (by decide) (by decide)⟩

/-- C6: For an event configured with cooldown `C > 0`, two consecutive
successful `buyPrimary` purchases by the same wallet for the same event
at pre-`uint64`-overflow timestamps are separated by at least C, and an
attempt strictly earlier than `lastPurchase + C` fails without mutating
state. -/
theorem C6_purchase_cooldown (s : ChainState) (sender e : Nat)
    (hcd : 0 < (s.events e).walletCooldown) :
    (∀ v1 v2 t1 t2 s1 s2, 0 < t1 → t1 < 2 ^ 64 →
      buyPrimary s sender v1 t1 e = .ok s1 →
      buyPrimary s1 sender v2 t2 e = .ok s2 →
      t1 + (s.events e).walletCooldown ≤ t2) ∧
    (∀ v t, (s.buyerState e sender).lastBuyTs ≠ 0 →
      t < (s.buyerState e sender).lastBuyTs +
        (s.events e).walletCooldown →
      ∃ err, buyPrimary s sender v t e = .error err ∧
        applyResult s (buyPrimary s sender v t e) = s) := by
  constructor
  · intro v1 v2 t1 t2 s1 s2 ht1pos ht1lt hb1 hb2
    obtain ⟨_, _, _, _, _, _, _, _, _, _, hs1⟩ := buyPrimary_ok hb1
    subst hs1
    obtain ⟨_, _, _, _, _, _, hcd2, _⟩ := buyPrimary_ok hb2
    have hbs : (buyPrimaryEffect s sender t1 e).buyerState e sender =
        { bought := (s.buyerState e sender).bought + 1,
          lastBuyTs := t1 % 2 ^ 64 } := by
      simp [buyPrimaryEffect, upd_apply]
    have hlast : ((buyPrimaryEffect s sender t1 e).buyerState e
        sender).lastBuyTs = t1 := by
      rw [hbs]
      exact Nat.mod_eq_of_lt ht1lt
    have hstep := hcd2 hcd (by rw [hlast]; omega)
    rw [hlast] at hstep
    exact hstep
  · intro v t hlast hlt
    cases hb : buyPrimary s sender v t e with
    | ok s2 =>
        obtain ⟨_, _, _, _, _, _, hcd2, _⟩ := buyPrimary_ok hb
        have := hcd2 hcd hlast
        omega
    | error err => exact ⟨err, rfl, rfl⟩

theorem C6_purchase_cooldown_witness :
    0 < (w3.events 1).walletCooldown ∧
    buyPrimary w3 6 100 20 1 = .ok cw1 ∧
    buyPrimary cw1 6 100 31 1 = .ok cw2 ∧
    20 + (w3.events 1).walletCooldown ≤ 31 :=
  ⟨by decide, rfl, rfl,
   (C6_purchase_cooldown w3 6 1 (by decide)).1 100 100 20 31 cw1 cw2
     (by decide) (by decide) rfl rfl⟩

/-- C7: `buyPrimary` is all-or-nothing: running its body as the
source-ordered sequence of checks and mutations (without revert
rollback), a failing run stops at a validation check evaluated before
any state mutation — the state at the failure point is exactly the
pre-state, and `buyPrimary` returns that same error with the pre-state
preserved — while a passing run returns precisely the mutated state. -/
theorem C7_all_or_nothing (s : ChainState) (h : Reachable s)
    (sender value now eventId : Nat) (hs : sender ≠ 0) :
    (∀ s2 err, runMicro s (buyPrimaryMicro sender value now eventId) =
        (s2, Option.some err) →
      s2 = s ∧ buyPrimary s sender value now eventId = .error err ∧
      applyResult s (buyPrimary s sender value now eventId) = s) ∧
    (∀ s2, runMicro s (buyPrimaryMicro sender value now eventId) =
        (s2, Option.none) →
      buyPrimary s sender value now eventId = .ok s2) := by
  have hInv := reachable_inv h
  constructor
  · intro s2 err hrun
    have hs2 := buyPrimary_micro_fail hInv hs s2 err hrun
    have heq := buyPrimary_eq_micro s sender value now eventId
    rw [hrun] at heq
    simp only [microResult] at heq
    refine ⟨hs2, heq, ?_⟩
    rw [heq]
    rfl
  · intro s2 hrun
    have heq := buyPrimary_eq_micro s sender value now eventId
    rw [hrun] at heq
    simpa only [microResult] using heq

theorem C7_all_or_nothing_witness :
    Reachable w3 ∧ (6 : Nat) ≠ 0 ∧
    buyPrimary w3 6 100 20 1 = .ok cw1 ∧
    (w3 = w3 ∧ buyPrimary w3 6 99 20 1 = .error Err.precioIncorrecto ∧
      applyResult w3 (buyPrimary w3 6 99 20 1) = w3) :=
  ⟨w3_reachable, by decide,
   (C7_all_or_nothing w3 w3_reachable 6 100 20 1 (by decide)).2 cw1 rfl,
   (C7_all_or_nothing w3 w3_reachable 6 99 20 1 (by decide)).1 w3
     Err.precioIncorrecto rfl⟩

/-- C8: Both purchase operations check payment for exact equality, not
at-least: a successful `buyPrimary` implies the paid amount equals the
base price exactly and a successful `buyFromResale` implies it equals
the ask price exactly; with the checks preceding the payment test
passing, any other amount — over or under — fails with the
payment-mismatch error. -/
theorem C8_exact_payment :
    (∀ s sender value now eventId s2,
      buyPrimary s sender value now eventId = .ok s2 →
      value = (s.events eventId).basePriceWei) ∧
    (∀ s sender value now eventId,
      (s.events eventId).organizer ≠ 0 →
      (s.events eventId).active = true →
      now < (s.events eventId).date →
      value ≠ (s.events eventId).basePriceWei →
      buyPrimary s sender value now eventId = .error .precioIncorrecto) ∧
    (∀ s sender value now lid s2,
      buyFromResale s sender value now lid = .ok s2 →
      value = (s.listings lid).priceWei) ∧
    (∀ s sender value now lid,
      (s.listings lid).active = true → (s.listings lid).seller ≠ 0 →
      value ≠ (s.listings lid).priceWei →
      buyFromResale s sender value now lid = .error .precioIncorrecto) ∧
    Err.kind .precioIncorrecto = ErrClass.paymentMismatch := by
  refine ⟨?_, ?_, ?_, ?_, rfl⟩
  · intro s sender value now eventId s2 hok
    exact (buyPrimary_ok hok).2.2.2.1
  · intro s sender value now eventId horg hact hdate hv
    exact buyPrimary_payment_mismatch horg hact hdate hv
  · intro s sender value now lid s2 hok
    exact (buyFromResale_ok hok).2.2.1
  · intro s sender value now lid hact hsell hv
    exact buyFromResale_payment_mismatch hact hsell hv

theorem C8_exact_payment_witness :
    (buyPrimary w3 6 100 20 1 = .ok cw1 ∧
      (100 : Nat) = (w3.events 1).basePriceWei) ∧
    buyPrimary w3 6 99 20 1 = .error .precioIncorrecto ∧
    (buyFromResale w4 6 125 10 0 = .ok w5 ∧
      (125 : Nat) = (w4.listings 0).priceWei) ∧
    buyFromResale w4 6 120 10 0 = .error .precioIncorrecto ∧
    Err.kind .precioIncorrecto = ErrClass.paymentMismatch :=
  ⟨⟨rfl, C8_exact_payment.1 w3 6 100 20 1 cw1 rfl⟩,
   C8_exact_payment.2.1 w3 6 99 20 1 (by decide) (by decide) (by decide)
     (by decide),
   ⟨rfl, C8_exact_payment.2.2.1 w4 6 125 10 0 w5 rfl⟩,
   C8_exact_payment.2.2.2.1 w4 6 120 10 0 (by decide) (by decide)
     (by decide),
   rfl⟩

/-- C9: `markTicketUsed` succeeds only when the caller is the ticket's
event organizer, a registered validator for that event, or the market
owner (the global administrator); when the ticket's event exists and the
caller is none of these, it fails with the authorization error and the
ticket-state mapping is unchanged. -/
theorem C9_admission_authorization :
    (∀ s sender t s2, markTicketUsed s sender t = .ok s2 →
      sender = (s.events (s.ticketEvent t)).organizer ∨
      s.validators (s.ticketEvent t) sender = true ∨
      sender = s.marketOwner) ∧
    (∀ s sender t,
      (s.events (s.ticketEvent t)).organizer ≠ 0 →
      ¬ (sender = (s.events (s.ticketEvent t)).organizer ∨
        s.validators (s.ticketEvent t) sender = true ∨
        sender = s.marketOwner) →
      markTicketUsed s sender t = .error .noAutorizado ∧
      Err.kind .noAutorizado = ErrClass.authorization ∧
      (applyResult s (markTicketUsed s sender t)).ticketState =
        s.ticketState) := by
  constructor
  · intro s sender t s2 hok
    exact (markTicketUsed_ok hok).2.1
  · intro s sender t horg hnoauth
    have herr := markTicketUsed_unauthorized horg hnoauth
    refine ⟨herr, rfl, ?_⟩
    rw [herr]
    rfl

theorem C9_admission_authorization_witness :
    (markTicketUsed w3 7 1 = .ok mu1 ∧
      ((7 : Nat) = (w3.events (w3.ticketEvent 1)).organizer ∨
        w3.validators (w3.ticketEvent 1) 7 = true ∨
        (7 : Nat) = w3.marketOwner)) ∧
    (markTicketUsed w3 8 1 = .error .noAutorizado ∧
      Err.kind .noAutorizado = ErrClass.authorization ∧
      (applyResult w3 (markTicketUsed w3 8 1)).ticketState =
        w3.ticketState) :=
  ⟨⟨rfl, C9_admission_authorization.1 w3 7 1 mu1 rfl⟩,
   C9_admission_authorization.2 w3 8 1 (by decide) (by decide)⟩

/-- C10 counterexample: the claim as stated is false on the code — the
public `ticketState` getter is part of the read surface and returns the
`None` (unminted) state for a ticket id that was never minted, already
in the reachable deployment state (token id 1). -/
theorem C10_counterexample :
    ¬ (∀ s : ChainState, Reachable s → ∀ t,
        s.ticketState t ≠ TicketState.none) := by
  intro hclaim
  exact hclaim w0 w0_reachable 1 rfl

/-- C10 amended: for every minted ticket (nonzero owner) the public
`ticketState` getter returns a state other than `None` — i.e. one of
Valid / Used / Cancelled — while an unminted id reads as `None`. -/
theorem C10_minted_state_observable (s : ChainState) (h : Reachable s)
    (t : Nat) :
    (s.owners t ≠ 0 → s.ticketState t ≠ TicketState.none) ∧
    (s.owners t = 0 → s.ticketState t = TicketState.none) := by
  have hInv := reachable_inv h
  constructor
  · exact fun hown => (hInv.stateOwner t).mpr hown
  · intro hz
    by_contra hne
    exact (hInv.stateOwner t).mp hne hz

theorem C10_minted_state_observable_witness :
    w3.owners 1 ≠ 0 ∧ w3.ticketState 1 ≠ TicketState.none :=
  ⟨by decide, (C10_minted_state_observable w3 w3_reachable 1).1 (by decide)⟩

end Ticketing
